import Mathlib

/-!
Verification of the dbdiff schema-comparison engine.

This file gives a shallow embedding of the Go source (main.go) into Lean 4:
Go maps (whose iteration order is arbitrary) are modelled as association
lists `List (String × α)`, Go slices as `List`, nil-able pointers as
`Option`, and fallible database calls as `Except String` values produced by
an oracle record.  The compiled regular expression stored in a
`FilterConfig` is abstracted as an opaque boolean predicate on strings
(its `MatchString` method).  `fmt.Sprintf` verbs are rendered as follows:
`%s` is plain splicing, `%v` on a bool is "true"/"false", `%v` on a
string slice is the bracketed space-separated form, and `%q` is modelled
as plain double-quoting (the escaping performed by `%q` on exotic
characters is abstracted away; no property proved here depends on it).
-/

namespace DbDiff

-- ============================================================================
-- MODELS - Schema representation  (main.go lines 22-71)
-- ============================================================================

structure Column where
  Name : String
  DataType : String
  IsNullable : Bool
  DefaultValue : Option String
deriving DecidableEq, Repr

structure PrimaryKey where
  Name : String
  Columns : List String
deriving DecidableEq, Repr

structure ForeignKey where
  Name : String
  Columns : List String
  RefTable : String
  RefColumns : List String
  OnDelete : String
  OnUpdate : String
deriving DecidableEq, Repr

structure Unique where
  Name : String
  Columns : List String
deriving DecidableEq, Repr

structure Index where
  Name : String
  Columns : List String
  IsUnique : Bool
deriving DecidableEq, Repr

structure CheckConstr where
  Name : String
  Expression : String
deriving DecidableEq, Repr

structure Table where
  Name : String
  Columns : List (String × Column)
  PrimaryKey : Option PrimaryKey
  ForeignKeys : List (String × ForeignKey)
  UniqueConstraints : List (String × Unique)
  Indexes : List (String × Index)
  CheckConstraints : List (String × CheckConstr)
deriving DecidableEq, Repr

structure Schema where
  Tables : List (String × Table)
deriving DecidableEq, Repr

-- ============================================================================
-- FILTER CONFIG  (main.go lines 77-116)
-- ============================================================================

structure FilterConfig where
  IgnoreTables : List String
  IgnoreTablePattern : Option (String → Bool)
  IgnoreColumns : List (String × List String)
  IgnoreIndexes : Bool
  IgnoreForeignKeys : Bool
  IgnoreChecks : Bool

/-- NewFilterConfig (main.go line 86): empty lists, nil pattern, all
switches false (Go zero values). -/
def NewFilterConfig : FilterConfig :=
  ⟨[], none, [], false, false, false⟩

-- ============================================================================
-- UTILITY FUNCTIONS  (main.go lines 1368-1395)
-- ============================================================================

/-- The key list of an association list (a Go map's key set, in the list's
own order; Go iterates in arbitrary order before sorting). -/
def keys {α : Type} (m : List (String × α)) : List String :=
  m.map Prod.fst

/-- getSortedKeys (main.go line 1368): collect the map's keys and
sort.Strings them. -/
def getSortedKeys {α : Type} (m : List (String × α)) : List String :=
  List.insertionSort (· ≤ ·) (keys m)

/-- makeSet (main.go line 1377): membership test of the resulting set. -/
def makeSet (items : List String) : String → Bool :=
  fun s => items.contains s

/-- Go map indexing m[k]: the value stored at key k (the first binding in
the association list; Go maps have unique keys). -/
def findVal {α : Type} (m : List (String × α)) (k : String) : Option α :=
  (m.find? (fun p => p.1 == k)).map Prod.snd

/-- strings.Join with a separator, as used by the comparators. -/
def joinSep (sep : String) : List String → String
  | [] => ""
  | [x] => x
  | x :: xs => x ++ sep ++ joinSep sep xs

/-- Sprintf %v rendering of a Go []string: bracketed, space-separated. -/
def fmtStrList (l : List String) : String :=
  "[" ++ joinSep " " l ++ "]"

/-- Sprintf %v rendering of a Go bool. -/
def boolStr (b : Bool) : String :=
  if b then "true" else "false"

/-- Sprintf %q rendering of a Go string (escaping abstracted as plain
quoting). -/
def quoteStr (s : String) : String :=
  "\"" ++ s ++ "\""

/-- equalStringSlices (main.go line 1385): length check then element-wise
comparison. -/
def equalStringSlices (a b : List String) : Bool :=
  if a.length ≠ b.length then false
  else (a.zip b).all fun p => p.1 == p.2

/-- ShouldIgnoreTable (main.go line 93): exact-name match, then regex
match (the compiled pattern abstracted as a predicate). -/
def FilterConfig.ShouldIgnoreTable (fc : FilterConfig) (tableName : String) : Bool :=
  if fc.IgnoreTables.contains tableName then true
  else match fc.IgnoreTablePattern with
    | some p => p tableName
    | none => false

/-- ShouldIgnoreColumn (main.go line 107). -/
def FilterConfig.ShouldIgnoreColumn (fc : FilterConfig) (tableName columnName : String) : Bool :=
  match findVal fc.IgnoreColumns tableName with
  | some cols => cols.contains columnName
  | none => false

-- ============================================================================
-- DIFF - Difference representation  (main.go lines 122-171)
-- ============================================================================

structure ColumnDiff where
  ColumnName : String
  Diff : String
deriving DecidableEq, Repr

structure FKDiff where
  Name : String
  Diff : String
deriving DecidableEq, Repr

structure UniqueDiff where
  Name : String
  Diff : String
deriving DecidableEq, Repr

structure IndexDiff where
  Name : String
  Diff : String
deriving DecidableEq, Repr

structure CheckDiff where
  Name : String
  Diff : String
deriving DecidableEq, Repr

structure TableDiff where
  TableName : String
  ColumnsOnlyInSource : List String
  ColumnsOnlyInTarget : List String
  ColumnDiffs : List ColumnDiff
  PrimaryKeyDiff : Option String
  ForeignKeysOnlyInSource : List String
  ForeignKeysOnlyInTarget : List String
  ForeignKeyDiffs : List FKDiff
  UniquesOnlyInSource : List String
  UniquesOnlyInTarget : List String
  UniqueDiffs : List UniqueDiff
  IndexesOnlyInSource : List String
  IndexesOnlyInTarget : List String
  IndexDiffs : List IndexDiff
  ChecksOnlyInSource : List String
  ChecksOnlyInTarget : List String
  CheckDiffs : List CheckDiff
deriving DecidableEq, Repr

structure SchemaDiff where
  TablesOnlyInSource : List String
  TablesOnlyInTarget : List String
  TableDiffs : List TableDiff
deriving DecidableEq, Repr

-- ============================================================================
-- DIFF ENGINE  (main.go lines 986-1242)
-- ============================================================================

/-- compareColumn (main.go line 1102): three independent sub-diffs joined
by a semicolon separator. -/
def compareColumn (source target : Column) : String :=
  joinSep "; " (
    (if source.DataType ≠ target.DataType then
      ["type: " ++ source.DataType ++ " → " ++ target.DataType] else []) ++
    (if source.IsNullable ≠ target.IsNullable then
      ["nullable: " ++ boolStr source.IsNullable ++ " → " ++ boolStr target.IsNullable] else []) ++
    (if source.DefaultValue.getD "" ≠ target.DefaultValue.getD "" then
      ["default: " ++ quoteStr (source.DefaultValue.getD "") ++ " → " ++
        quoteStr (target.DefaultValue.getD "")] else []))

/-- comparePrimaryKey (main.go line 1128). -/
def comparePrimaryKey (source target : Option PrimaryKey) : String :=
  match source, target with
  | none, none => ""
  | none, some t => "added: " ++ fmtStrList t.Columns
  | some s, none => "removed: " ++ fmtStrList s.Columns
  | some s, some t =>
    if equalStringSlices s.Columns t.Columns then ""
    else "columns: " ++ fmtStrList s.Columns ++ " → " ++ fmtStrList t.Columns

/-- compareForeignKey (main.go line 1144): up to five clauses joined by a
semicolon separator. -/
def compareForeignKey (source target : ForeignKey) : String :=
  joinSep "; " (
    (if equalStringSlices source.Columns target.Columns then [] else
      ["columns: " ++ fmtStrList source.Columns ++ " → " ++ fmtStrList target.Columns]) ++
    (if source.RefTable ≠ target.RefTable then
      ["ref_table: " ++ source.RefTable ++ " → " ++ target.RefTable] else []) ++
    (if equalStringSlices source.RefColumns target.RefColumns then [] else
      ["ref_columns: " ++ fmtStrList source.RefColumns ++ " → " ++ fmtStrList target.RefColumns]) ++
    (if source.OnDelete ≠ target.OnDelete then
      ["on_delete: " ++ source.OnDelete ++ " → " ++ target.OnDelete] else []) ++
    (if source.OnUpdate ≠ target.OnUpdate then
      ["on_update: " ++ source.OnUpdate ++ " → " ++ target.OnUpdate] else []))

/-- compareUnique (main.go line 1170). -/
def compareUnique (source target : Unique) : String :=
  if equalStringSlices source.Columns target.Columns then ""
  else "columns: " ++ fmtStrList source.Columns ++ " → " ++ fmtStrList target.Columns

/-- compareIndex (main.go line 1177). -/
def compareIndex (source target : Index) : String :=
  joinSep "; " (
    (if equalStringSlices source.Columns target.Columns then [] else
      ["columns: " ++ fmtStrList source.Columns ++ " → " ++ fmtStrList target.Columns]) ++
    (if source.IsUnique ≠ target.IsUnique then
      ["unique: " ++ boolStr source.IsUnique ++ " → " ++ boolStr target.IsUnique] else []))

/-- compareCheck (main.go line 1191). -/
def compareCheck (source target : CheckConstr) : String :=
  if source.Expression ≠ target.Expression then
    "expression: " ++ source.Expression ++ " → " ++ target.Expression
  else ""

/-- compareMaps (main.go line 1199), purified: instead of mutating three
out-parameters it returns the (onlyInSource, onlyInTarget, diffs) triple;
the Go type-switch that constructs the concrete diff record is passed in
as the constructor mk. -/
def compareMaps {α D : Type} (sourceMap targetMap : List (String × α))
    (compareFn : α → α → String) (mk : String → String → D) :
    List String × List String × List D :=
  let sourceKeys := getSortedKeys sourceMap
  let targetKeys := getSortedKeys targetMap
  let sourceSet := makeSet sourceKeys
  let targetSet := makeSet targetKeys
  let onlyInSource := sourceKeys.filter fun key => !(targetSet key)
  let onlyInTarget := targetKeys.filter fun key => !(sourceSet key)
  let diffs := sourceKeys.filterMap fun key =>
    if targetSet key then
      match findVal sourceMap key, findVal targetMap key with
      | some sv, some tv =>
        let diffStr := compareFn sv tv
        if diffStr = "" then none else some (mk key diffStr)
      | _, _ => none
    else none
  (onlyInSource, onlyInTarget, diffs)

/-- compareTable (main.go line 1021). -/
def compareTable (source target : Table) (filter : FilterConfig) : TableDiff :=
  let sourceColNames := getSortedKeys source.Columns
  let targetColNames := getSortedKeys target.Columns
  let sourceColSet := makeSet sourceColNames
  let targetColSet := makeSet targetColNames
  let columnsOnlyInSource := sourceColNames.filter fun name =>
    !(targetColSet name) && !(filter.ShouldIgnoreColumn source.Name name)
  let columnsOnlyInTarget := targetColNames.filter fun name =>
    !(sourceColSet name) && !(filter.ShouldIgnoreColumn target.Name name)
  let columnDiffs := sourceColNames.filterMap fun colName =>
    if targetColSet colName && !(filter.ShouldIgnoreColumn source.Name colName) then
      match findVal source.Columns colName, findVal target.Columns colName with
      | some sc, some tc =>
        let colDiff := compareColumn sc tc
        if colDiff = "" then none else some (ColumnDiff.mk colName colDiff)
      | _, _ => none
    else none
  let pkDiff := comparePrimaryKey source.PrimaryKey target.PrimaryKey
  let primaryKeyDiff := if pkDiff ≠ "" then some pkDiff else none
  let fk := if !filter.IgnoreForeignKeys then
      compareMaps source.ForeignKeys target.ForeignKeys compareForeignKey FKDiff.mk
    else ([], [], [])
  let uq := compareMaps source.UniqueConstraints target.UniqueConstraints
    compareUnique UniqueDiff.mk
  let idx := if !filter.IgnoreIndexes then
      compareMaps source.Indexes target.Indexes compareIndex IndexDiff.mk
    else ([], [], [])
  let chk := if !filter.IgnoreChecks then
      compareMaps source.CheckConstraints target.CheckConstraints compareCheck CheckDiff.mk
    else ([], [], [])
  { TableName := source.Name
    ColumnsOnlyInSource := columnsOnlyInSource
    ColumnsOnlyInTarget := columnsOnlyInTarget
    ColumnDiffs := columnDiffs
    PrimaryKeyDiff := primaryKeyDiff
    ForeignKeysOnlyInSource := fk.1
    ForeignKeysOnlyInTarget := fk.2.1
    ForeignKeyDiffs := fk.2.2
    UniquesOnlyInSource := uq.1
    UniquesOnlyInTarget := uq.2.1
    UniqueDiffs := uq.2.2
    IndexesOnlyInSource := idx.1
    IndexesOnlyInTarget := idx.2.1
    IndexDiffs := idx.2.2
    ChecksOnlyInSource := chk.1
    ChecksOnlyInTarget := chk.2.1
    CheckDiffs := chk.2.2 }

/-- isTableDiffEmpty (main.go line 1397). -/
def isTableDiffEmpty (diff : TableDiff) : Bool :=
  diff.ColumnsOnlyInSource.isEmpty &&
  diff.ColumnsOnlyInTarget.isEmpty &&
  diff.ColumnDiffs.isEmpty &&
  diff.PrimaryKeyDiff.isNone &&
  diff.ForeignKeysOnlyInSource.isEmpty &&
  diff.ForeignKeysOnlyInTarget.isEmpty &&
  diff.ForeignKeyDiffs.isEmpty &&
  diff.UniquesOnlyInSource.isEmpty &&
  diff.UniquesOnlyInTarget.isEmpty &&
  diff.UniqueDiffs.isEmpty &&
  diff.IndexesOnlyInSource.isEmpty &&
  diff.IndexesOnlyInTarget.isEmpty &&
  diff.IndexDiffs.isEmpty &&
  diff.ChecksOnlyInSource.isEmpty &&
  diff.ChecksOnlyInTarget.isEmpty &&
  diff.CheckDiffs.isEmpty

/-- ComputeDiff (main.go line 986). -/
def ComputeDiff (source target : Schema) (filter : FilterConfig) : SchemaDiff :=
  let sourceTableNames := getSortedKeys source.Tables
  let targetTableNames := getSortedKeys target.Tables
  let sourceSet := makeSet sourceTableNames
  let targetSet := makeSet targetTableNames
  let tablesOnlyInSource := sourceTableNames.filter fun name =>
    !(targetSet name) && !(filter.ShouldIgnoreTable name)
  let tablesOnlyInTarget := targetTableNames.filter fun name =>
    !(sourceSet name) && !(filter.ShouldIgnoreTable name)
  let tableDiffs := sourceTableNames.filterMap fun tableName =>
    if targetSet tableName && !(filter.ShouldIgnoreTable tableName) then
      match findVal source.Tables tableName, findVal target.Tables tableName with
      | some st, some tt =>
        let tableDiff := compareTable st tt filter
        if !isTableDiffEmpty tableDiff then some tableDiff else none
      | _, _ => none
    else none
  { TablesOnlyInSource := tablesOnlyInSource
    TablesOnlyInTarget := tablesOnlyInTarget
    TableDiffs := tableDiffs }

/-- isDiffEmpty (main.go line 1416). -/
def isDiffEmpty (diff : SchemaDiff) : Bool :=
  diff.TablesOnlyInSource.isEmpty &&
  diff.TablesOnlyInTarget.isEmpty &&
  diff.TableDiffs.isEmpty
-- ============================================================================
-- HELPER LEMMAS
-- ============================================================================

theorem str_len_zero_iff (s : String) : s.length = 0 ↔ s = "" := by
  constructor
  · intro h
    cases s with
    | mk d =>
      have hd : d = [] := List.length_eq_zero.mp h
      subst hd; rfl
  · intro h; rw [h]; rfl

theorem str_append_ne_empty_left (a b : String) (ha : a ≠ "") : a ++ b ≠ "" := by
  intro hc
  have hl := congrArg String.length hc
  rw [String.length_append, show ("" : String).length = 0 from rfl] at hl
  exact ha ((str_len_zero_iff a).mp (by omega))

theorem append3_ne_empty (p a b c : String) (h : p ≠ "") : p ++ a ++ b ++ c ≠ "" :=
  str_append_ne_empty_left _ _ (str_append_ne_empty_left _ _ (str_append_ne_empty_left _ _ h))

theorem joinSep_eq_empty_iff (sep : String) :
    ∀ (l : List String), (∀ x ∈ l, x ≠ "") → (joinSep sep l = "" ↔ l = [])
  | [], _ => by simp [joinSep]
  | [x], h => by
    simp only [joinSep]
    constructor
    · intro hc; exact absurd hc (h x (by simp))
    · intro hc; cases hc
  | x :: y :: ys, h => by
    constructor
    · intro hc
      exact absurd hc (str_append_ne_empty_left _ _
        (str_append_ne_empty_left _ _ (h x (by simp))))
    · intro hc; cases hc

theorem ite_singleton_eq_nil {c : Prop} [Decidable c] {e : String} :
    ((if c then [e] else []) = []) ↔ ¬c := by
  split <;> simp_all

theorem mem_ite_singleton {c : Prop} [Decidable c] {e x : String}
    (hx : x ∈ (if c then [e] else [])) : x = e := by
  split at hx <;> simp_all

theorem equalStringSlices_iff : ∀ (a b : List String), equalStringSlices a b = true ↔ a = b
  | [], [] => by simp [equalStringSlices]
  | [], _ :: _ => by simp [equalStringSlices]
  | _ :: _, [] => by simp [equalStringSlices]
  | x :: xs, y :: ys => by
    have ih := equalStringSlices_iff xs ys
    by_cases hl : xs.length = ys.length
    · simp only [equalStringSlices, List.length_cons, hl] at ih ⊢
      rw [if_neg (fun hne => hne rfl)] at ih
      rw [if_neg (fun hne => hne rfl)]
      simp only [List.zip_cons_cons, List.all_cons, Bool.and_eq_true, beq_iff_eq]
      rw [ih]
      constructor
      · rintro ⟨h1, h2⟩; rw [h1, h2]
      · intro h
        injection h with h1 h2
        exact ⟨h1, h2⟩
    · simp only [equalStringSlices, List.length_cons]
      rw [if_pos (by omega : (xs.length + 1 : Nat) ≠ ys.length + 1)]
      constructor
      · intro hc; exact absurd hc (by simp)
      · intro hc
        injection hc with h1 h2
        exact absurd (by rw [h2]) hl

theorem equalStringSlices_self (a : List String) : equalStringSlices a a = true :=
  (equalStringSlices_iff a a).mpr rfl

theorem contains_iff_mem (l : List String) (a : String) : l.contains a = true ↔ a ∈ l := by
  simp [List.contains]

theorem findVal_isSome_iff {α : Type} :
    ∀ (m : List (String × α)) (k : String), (findVal m k).isSome = true ↔ k ∈ keys m
  | [], k => by simp [findVal, keys]
  | p :: rest, k => by
    by_cases h : p.1 = k
    · rw [findVal, List.find?_cons_of_pos _ (by simpa using h)]
      simp [keys, h]
    · rw [findVal, List.find?_cons_of_neg _ (by simpa using h)]
      have ih := findVal_isSome_iff rest k
      rw [findVal] at ih
      rw [ih]
      simp only [keys, List.map_cons, List.mem_cons]
      constructor
      · exact Or.inr
      · rintro (hc | hc)
        · exact absurd hc.symm h
        · exact hc

theorem mem_of_findVal_eq_some {α : Type} :
    ∀ {m : List (String × α)} {k : String} {v : α}, findVal m k = some v → (k, v) ∈ m
  | [], k, v, h => by simp [findVal] at h
  | p :: rest, k, v, h => by
    by_cases hp : p.1 = k
    · rw [findVal, List.find?_cons_of_pos _ (by simpa using hp)] at h
      simp only [Option.map_some'] at h
      have hpv : p = (k, v) := Prod.ext_iff.mpr ⟨hp, by injection h⟩
      rw [hpv]
      exact List.mem_cons_self _ _
    · rw [findVal, List.find?_cons_of_neg _ (by simpa using hp)] at h
      exact List.mem_cons_of_mem _ (mem_of_findVal_eq_some h)

theorem findVal_eq_some_of_mem {α : Type} :
    ∀ {m : List (String × α)} {k : String} {v : α},
      (keys m).Nodup → (k, v) ∈ m → findVal m k = some v
  | [], _, _, _, hm => absurd hm (List.not_mem_nil _)
  | p :: rest, k, v, hnd, hm => by
    have hnd' := hnd
    simp only [keys, List.map_cons, List.nodup_cons] at hnd'
    rcases List.mem_cons.mp hm with h | h
    · rw [← h]
      rw [findVal, List.find?_cons_of_pos _ (by simp)]
      rfl
    · have hk : ¬ p.1 = k := by
        intro he
        apply hnd'.1
        rw [he]
        exact List.mem_map_of_mem Prod.fst h
      rw [findVal, List.find?_cons_of_neg _ (by simpa using hk)]
      exact findVal_eq_some_of_mem hnd'.2 h

theorem findVal_perm {α : Type} {m m' : List (String × α)} (hp : m.Perm m')
    (hnd : (keys m).Nodup) (k : String) : findVal m k = findVal m' k := by
  have hnd' : (keys m').Nodup := ((hp.map Prod.fst).nodup_iff).mp hnd
  cases hv : findVal m k with
  | some v =>
    exact (findVal_eq_some_of_mem hnd' (hp.mem_iff.mp (mem_of_findVal_eq_some hv))).symm
  | none =>
    cases hv' : findVal m' k with
    | none => rfl
    | some v =>
      have hk : k ∈ keys m := by
        rw [show keys m = List.map Prod.fst m from rfl, (hp.map Prod.fst).mem_iff]
        exact (findVal_isSome_iff m' k).mp (by simp [hv'])
      rw [← findVal_isSome_iff] at hk
      simp [hv] at hk

theorem sorted_getSortedKeys {α : Type} (m : List (String × α)) :
    List.Sorted (· ≤ ·) (getSortedKeys m) :=
  List.sorted_insertionSort _ _

theorem mem_getSortedKeys_iff {α : Type} (m : List (String × α)) (a : String) :
    a ∈ getSortedKeys m ↔ a ∈ keys m :=
  (List.perm_insertionSort _ _).mem_iff

theorem nodup_getSortedKeys {α : Type} {m : List (String × α)} (h : (keys m).Nodup) :
    (getSortedKeys m).Nodup :=
  ((List.perm_insertionSort _ _).nodup_iff).mpr h

theorem getSortedKeys_perm {α : Type} {m m' : List (String × α)} (hp : m.Perm m') :
    getSortedKeys m = getSortedKeys m' :=
  List.eq_of_perm_of_sorted
    ((List.perm_insertionSort _ _).trans ((hp.map Prod.fst).trans
      (List.perm_insertionSort _ _).symm))
    (sorted_getSortedKeys m) (sorted_getSortedKeys m')
theorem ite_nil_singleton_eq_nil {c : Prop} [Decidable c] {e : String} :
    ((if c then [] else [e]) = []) ↔ c := by
  split <;> simp_all

theorem mem_ite_nil_singleton {c : Prop} [Decidable c] {e x : String}
    (hx : x ∈ (if c then [] else [e])) : x = e := by
  split at hx <;> simp_all

-- Emptiness characterizations of the value comparators: the diff message is
-- the empty string exactly when the compared attributes agree.

theorem compareColumn_eq_empty_iff (s t : Column) :
    compareColumn s t = "" ↔
      (s.DataType = t.DataType ∧ s.IsNullable = t.IsNullable ∧
        s.DefaultValue.getD "" = t.DefaultValue.getD "") := by
  unfold compareColumn
  rw [joinSep_eq_empty_iff]
  · simp only [List.append_eq_nil, ite_singleton_eq_nil, not_not, and_assoc]
  · intro x hx
    rcases List.mem_append.mp hx with h | h
    · rcases List.mem_append.mp h with h1 | h1
      · rw [mem_ite_singleton h1]; exact append3_ne_empty _ _ _ _ (by decide)
      · rw [mem_ite_singleton h1]; exact append3_ne_empty _ _ _ _ (by decide)
    · rw [mem_ite_singleton h]; exact append3_ne_empty _ _ _ _ (by decide)

theorem compareForeignKey_eq_empty_iff (s t : ForeignKey) :
    compareForeignKey s t = "" ↔
      (s.Columns = t.Columns ∧ s.RefTable = t.RefTable ∧ s.RefColumns = t.RefColumns ∧
        s.OnDelete = t.OnDelete ∧ s.OnUpdate = t.OnUpdate) := by
  unfold compareForeignKey
  rw [joinSep_eq_empty_iff]
  · simp only [List.append_eq_nil, ite_singleton_eq_nil, ite_nil_singleton_eq_nil,
      not_not, equalStringSlices_iff, and_assoc]
  · intro x hx
    rcases List.mem_append.mp hx with h | h
    · rcases List.mem_append.mp h with h | h
      · rcases List.mem_append.mp h with h | h
        · rcases List.mem_append.mp h with h | h
          · rw [mem_ite_nil_singleton h]; exact append3_ne_empty _ _ _ _ (by decide)
          · rw [mem_ite_singleton h]; exact append3_ne_empty _ _ _ _ (by decide)
        · rw [mem_ite_nil_singleton h]; exact append3_ne_empty _ _ _ _ (by decide)
      · rw [mem_ite_singleton h]; exact append3_ne_empty _ _ _ _ (by decide)
    · rw [mem_ite_singleton h]; exact append3_ne_empty _ _ _ _ (by decide)

theorem compareUnique_eq_empty_iff (s t : Unique) :
    compareUnique s t = "" ↔ s.Columns = t.Columns := by
  unfold compareUnique
  split
  next h => simp [(equalStringSlices_iff _ _).mp h]
  next h =>
    constructor
    · intro hc; exact absurd hc (append3_ne_empty _ _ _ _ (by decide))
    · intro hc; exact absurd ((equalStringSlices_iff _ _).mpr hc) h

theorem compareIndex_eq_empty_iff (s t : Index) :
    compareIndex s t = "" ↔ (s.Columns = t.Columns ∧ s.IsUnique = t.IsUnique) := by
  unfold compareIndex
  rw [joinSep_eq_empty_iff]
  · simp only [List.append_eq_nil, ite_singleton_eq_nil, ite_nil_singleton_eq_nil,
      not_not, equalStringSlices_iff]
  · intro x hx
    rcases List.mem_append.mp hx with h | h
    · rw [mem_ite_nil_singleton h]; exact append3_ne_empty _ _ _ _ (by decide)
    · rw [mem_ite_singleton h]; exact append3_ne_empty _ _ _ _ (by decide)

theorem compareCheck_eq_empty_iff (s t : CheckConstr) :
    compareCheck s t = "" ↔ s.Expression = t.Expression := by
  unfold compareCheck
  split
  next h =>
    constructor
    · intro hc; exact absurd hc (append3_ne_empty _ _ _ _ (by decide))
    · intro hc; exact absurd hc h
  next h => simp [not_not.mp h]

theorem comparePrimaryKey_eq_empty_symm (s t : Option PrimaryKey) :
    (comparePrimaryKey s t = "") ↔ (comparePrimaryKey t s = "") := by
  cases s with
  | none =>
    cases t with
    | none => exact Iff.rfl
    | some b =>
      simp only [comparePrimaryKey]
      constructor
      · intro hc; exact absurd hc (str_append_ne_empty_left _ _ (by decide))
      · intro hc; exact absurd hc (str_append_ne_empty_left _ _ (by decide))
  | some a =>
    cases t with
    | none =>
      simp only [comparePrimaryKey]
      constructor
      · intro hc; exact absurd hc (str_append_ne_empty_left _ _ (by decide))
      · intro hc; exact absurd hc (str_append_ne_empty_left _ _ (by decide))
    | some b =>
      simp only [comparePrimaryKey]
      by_cases h : a.Columns = b.Columns
      · rw [if_pos ((equalStringSlices_iff _ _).mpr h),
          if_pos ((equalStringSlices_iff _ _).mpr h.symm)]
      · rw [if_neg (fun hc => h ((equalStringSlices_iff _ _).mp hc)),
          if_neg (fun hc => h ((equalStringSlices_iff _ _).mp hc).symm)]
        constructor
        · intro hc; exact absurd hc (append3_ne_empty _ _ _ _ (by decide))
        · intro hc; exact absurd hc (append3_ne_empty _ _ _ _ (by decide))

theorem comparePrimaryKey_self (s : Option PrimaryKey) : comparePrimaryKey s s = "" := by
  cases s with
  | none => rfl
  | some a =>
    simp only [comparePrimaryKey]
    rw [if_pos (equalStringSlices_self _)]

theorem compareColumn_self (c : Column) : compareColumn c c = "" :=
  (compareColumn_eq_empty_iff c c).mpr ⟨rfl, rfl, rfl⟩

theorem compareForeignKey_self (f : ForeignKey) : compareForeignKey f f = "" :=
  (compareForeignKey_eq_empty_iff f f).mpr ⟨rfl, rfl, rfl, rfl, rfl⟩

theorem compareUnique_self (u : Unique) : compareUnique u u = "" :=
  (compareUnique_eq_empty_iff u u).mpr rfl

theorem compareIndex_self (i : Index) : compareIndex i i = "" :=
  (compareIndex_eq_empty_iff i i).mpr ⟨rfl, rfl⟩

theorem compareCheck_self (c : CheckConstr) : compareCheck c c = "" :=
  (compareCheck_eq_empty_iff c c).mpr rfl

theorem compareColumn_eq_empty_symm (s t : Column) :
    (compareColumn s t = "") ↔ (compareColumn t s = "") := by
  rw [compareColumn_eq_empty_iff, compareColumn_eq_empty_iff]
  constructor <;> rintro ⟨h1, h2, h3⟩ <;> exact ⟨h1.symm, h2.symm, h3.symm⟩

theorem compareForeignKey_eq_empty_symm (s t : ForeignKey) :
    (compareForeignKey s t = "") ↔ (compareForeignKey t s = "") := by
  rw [compareForeignKey_eq_empty_iff, compareForeignKey_eq_empty_iff]
  constructor <;> rintro ⟨h1, h2, h3, h4, h5⟩ <;>
    exact ⟨h1.symm, h2.symm, h3.symm, h4.symm, h5.symm⟩

theorem compareUnique_eq_empty_symm (s t : Unique) :
    (compareUnique s t = "") ↔ (compareUnique t s = "") := by
  rw [compareUnique_eq_empty_iff, compareUnique_eq_empty_iff]
  exact eq_comm

theorem compareIndex_eq_empty_symm (s t : Index) :
    (compareIndex s t = "") ↔ (compareIndex t s = "") := by
  rw [compareIndex_eq_empty_iff, compareIndex_eq_empty_iff]
  constructor <;> rintro ⟨h1, h2⟩ <;> exact ⟨h1.symm, h2.symm⟩

theorem compareCheck_eq_empty_symm (s t : CheckConstr) :
    (compareCheck s t = "") ↔ (compareCheck t s = "") := by
  rw [compareCheck_eq_empty_iff, compareCheck_eq_empty_iff]
  exact eq_comm
-- ============================================================================
-- REFLEXIVITY (claim C1)
-- ============================================================================

theorem filter_not_contains_self_nil (l : List String) :
    (l.filter fun k => !(makeSet l k)) = [] := by
  rw [List.filter_eq_nil_iff]
  intro a ha
  have h1 : makeSet l a = true := (contains_iff_mem l a).mpr ha
  simp [h1]

theorem compareMaps_self {α D : Type} (m : List (String × α)) (cmp : α → α → String)
    (mk : String → String → D) (hcmp : ∀ v, cmp v v = "") :
    compareMaps m m cmp mk = ([], [], []) := by
  unfold compareMaps
  simp only [Prod.mk.injEq]
  refine ⟨filter_not_contains_self_nil _, filter_not_contains_self_nil _, ?_⟩
  rw [List.filterMap_eq_nil_iff]
  intro k hk
  rw [if_pos (show makeSet (getSortedKeys m) k = true from (contains_iff_mem _ k).mpr hk)]
  obtain ⟨v, hv⟩ := Option.isSome_iff_exists.mp
    ((findVal_isSome_iff m k).mpr ((mem_getSortedKeys_iff m k).mp hk))
  rw [hv]
  simp [hcmp v]

theorem compareTable_self (t : Table) (f : FilterConfig) :
    compareTable t t f =
      { TableName := t.Name
        ColumnsOnlyInSource := []
        ColumnsOnlyInTarget := []
        ColumnDiffs := []
        PrimaryKeyDiff := none
        ForeignKeysOnlyInSource := []
        ForeignKeysOnlyInTarget := []
        ForeignKeyDiffs := []
        UniquesOnlyInSource := []
        UniquesOnlyInTarget := []
        UniqueDiffs := []
        IndexesOnlyInSource := []
        IndexesOnlyInTarget := []
        IndexDiffs := []
        ChecksOnlyInSource := []
        ChecksOnlyInTarget := []
        CheckDiffs := [] } := by
  have hfk := compareMaps_self t.ForeignKeys compareForeignKey FKDiff.mk compareForeignKey_self
  have huq := compareMaps_self t.UniqueConstraints compareUnique UniqueDiff.mk compareUnique_self
  have hidx := compareMaps_self t.Indexes compareIndex IndexDiff.mk compareIndex_self
  have hchk := compareMaps_self t.CheckConstraints compareCheck CheckDiff.mk compareCheck_self
  have hcols : ∀ p : String → Bool,
      ((getSortedKeys t.Columns).filter fun name =>
        !(makeSet (getSortedKeys t.Columns) name) && p name) = [] := by
    intro p
    rw [List.filter_eq_nil_iff]
    intro a ha
    have h1 : makeSet (getSortedKeys t.Columns) a = true := (contains_iff_mem _ a).mpr ha
    simp [h1]
  have hdiffs : ((getSortedKeys t.Columns).filterMap fun colName =>
      if makeSet (getSortedKeys t.Columns) colName && !(f.ShouldIgnoreColumn t.Name colName) then
        match findVal t.Columns colName, findVal t.Columns colName with
        | some sc, some tc =>
          if compareColumn sc tc = "" then none
          else some (ColumnDiff.mk colName (compareColumn sc tc))
        | _, _ => none
      else none) = [] := by
    rw [List.filterMap_eq_nil_iff]
    intro k hk
    by_cases hig : f.ShouldIgnoreColumn t.Name k = true
    · rw [if_neg (by simp [hig])]
    · have hig' : f.ShouldIgnoreColumn t.Name k = false := Bool.eq_false_iff.mpr hig
      rw [if_pos (by rw [Bool.and_eq_true]
                     exact ⟨(contains_iff_mem _ k).mpr hk, by simp [hig']⟩)]
      obtain ⟨v, hv⟩ := Option.isSome_iff_exists.mp
        ((findVal_isSome_iff t.Columns k).mpr ((mem_getSortedKeys_iff t.Columns k).mp hk))
      rw [hv]
      simp [compareColumn_self v]
  simp only [compareTable]
  rw [hfk, huq, hidx, hchk, hcols _, hdiffs, comparePrimaryKey_self]
  simp [ite_self]
theorem isTableDiffEmpty_compareTable_self (t : Table) (f : FilterConfig) :
    isTableDiffEmpty (compareTable t t f) = true := by
  rw [compareTable_self]
  rfl

/-- C1: ComputeDiff of a schema against itself with the empty filter yields
the empty SchemaDiff: no only-in lists and no table diffs. -/
theorem C1_reflexivity (S : Schema) :
    ComputeDiff S S NewFilterConfig =
      { TablesOnlyInSource := [], TablesOnlyInTarget := [], TableDiffs := [] } := by
  simp only [ComputeDiff]
  simp only [SchemaDiff.mk.injEq]
  have honly : ∀ p : String → Bool,
      ((getSortedKeys S.Tables).filter fun name =>
        !(makeSet (getSortedKeys S.Tables) name) && p name) = [] := by
    intro p
    rw [List.filter_eq_nil_iff]
    intro a ha
    have h1 : makeSet (getSortedKeys S.Tables) a = true := (contains_iff_mem _ a).mpr ha
    simp [h1]
  refine ⟨honly _, honly _, ?_⟩
  rw [List.filterMap_eq_nil_iff]
  intro k hk
  rw [if_pos (by rw [Bool.and_eq_true]
                 exact ⟨(contains_iff_mem _ k).mpr hk, rfl⟩)]
  obtain ⟨v, hv⟩ := Option.isSome_iff_exists.mp
    ((findVal_isSome_iff S.Tables k).mpr ((mem_getSortedKeys_iff S.Tables k).mp hk))
  rw [hv]
  simp [isTableDiffEmpty_compareTable_self]
-- ============================================================================
-- TABLE-DIFF MEMBERSHIP AND FACET PROJECTIONS (claims C4, C9, C10)
-- ============================================================================

theorem exists_of_mem_tableDiffs {src tgt : Schema} {f : FilterConfig} {td : TableDiff}
    (h : td ∈ (ComputeDiff src tgt f).TableDiffs) :
    ∃ st tt, compareTable st tt f = td := by
  simp only [ComputeDiff] at h
  rw [List.mem_filterMap] at h
  obtain ⟨k, _, hf⟩ := h
  split at hf
  · split at hf
    · split at hf
      · rename_i st tt hq1 hq2 hemp
        injection hf with hf2
        exact ⟨st, tt, hf2⟩
      · simp at hf
    · simp at hf
  · simp at hf

theorem compareTable_fk_suppressed (s t : Table) (f : FilterConfig)
    (hf : f.IgnoreForeignKeys = true) :
    (compareTable s t f).ForeignKeysOnlyInSource = [] ∧
    (compareTable s t f).ForeignKeysOnlyInTarget = [] ∧
    (compareTable s t f).ForeignKeyDiffs = [] := by
  simp [compareTable, hf]

theorem compareTable_idx_suppressed (s t : Table) (f : FilterConfig)
    (hf : f.IgnoreIndexes = true) :
    (compareTable s t f).IndexesOnlyInSource = [] ∧
    (compareTable s t f).IndexesOnlyInTarget = [] ∧
    (compareTable s t f).IndexDiffs = [] := by
  simp [compareTable, hf]

theorem compareTable_chk_suppressed (s t : Table) (f : FilterConfig)
    (hf : f.IgnoreChecks = true) :
    (compareTable s t f).ChecksOnlyInSource = [] ∧
    (compareTable s t f).ChecksOnlyInTarget = [] ∧
    (compareTable s t f).CheckDiffs = [] := by
  simp [compareTable, hf]

/-- C4: with IgnoreForeignKeys set, no TableDiff in the output carries any
foreign-key entry (only-in lists or value diffs); likewise for the index
facet under IgnoreIndexes and the check facet under IgnoreChecks. -/
theorem C4_facet_suppression (src tgt : Schema) (f : FilterConfig) :
    (f.IgnoreForeignKeys = true → ∀ td ∈ (ComputeDiff src tgt f).TableDiffs,
      td.ForeignKeysOnlyInSource = [] ∧ td.ForeignKeysOnlyInTarget = [] ∧
        td.ForeignKeyDiffs = []) ∧
    (f.IgnoreIndexes = true → ∀ td ∈ (ComputeDiff src tgt f).TableDiffs,
      td.IndexesOnlyInSource = [] ∧ td.IndexesOnlyInTarget = [] ∧
        td.IndexDiffs = []) ∧
    (f.IgnoreChecks = true → ∀ td ∈ (ComputeDiff src tgt f).TableDiffs,
      td.ChecksOnlyInSource = [] ∧ td.ChecksOnlyInTarget = [] ∧
        td.CheckDiffs = []) := by
  refine ⟨fun hf td hm => ?_, fun hf td hm => ?_, fun hf td hm => ?_⟩ <;>
    obtain ⟨st, tt, he⟩ := exists_of_mem_tableDiffs hm
  · exact he ▸ compareTable_fk_suppressed st tt f hf
  · exact he ▸ compareTable_idx_suppressed st tt f hf
  · exact he ▸ compareTable_chk_suppressed st tt f hf

/-- C9: the per-table column ignore-list (and the table-name filters) affect
only the column facet: two filters agreeing on the three suppression
switches give identical primary-key, foreign-key, unique, index and check
outputs from compareTable, whatever their IgnoreColumns lists. -/
theorem C9_ignore_columns_frame (s t : Table) (f g : FilterConfig)
    (h1 : f.IgnoreIndexes = g.IgnoreIndexes)
    (h2 : f.IgnoreForeignKeys = g.IgnoreForeignKeys)
    (h3 : f.IgnoreChecks = g.IgnoreChecks) :
    (compareTable s t f).PrimaryKeyDiff = (compareTable s t g).PrimaryKeyDiff ∧
    (compareTable s t f).ForeignKeysOnlyInSource = (compareTable s t g).ForeignKeysOnlyInSource ∧
    (compareTable s t f).ForeignKeysOnlyInTarget = (compareTable s t g).ForeignKeysOnlyInTarget ∧
    (compareTable s t f).ForeignKeyDiffs = (compareTable s t g).ForeignKeyDiffs ∧
    (compareTable s t f).UniquesOnlyInSource = (compareTable s t g).UniquesOnlyInSource ∧
    (compareTable s t f).UniquesOnlyInTarget = (compareTable s t g).UniquesOnlyInTarget ∧
    (compareTable s t f).UniqueDiffs = (compareTable s t g).UniqueDiffs ∧
    (compareTable s t f).IndexesOnlyInSource = (compareTable s t g).IndexesOnlyInSource ∧
    (compareTable s t f).IndexesOnlyInTarget = (compareTable s t g).IndexesOnlyInTarget ∧
    (compareTable s t f).IndexDiffs = (compareTable s t g).IndexDiffs ∧
    (compareTable s t f).ChecksOnlyInSource = (compareTable s t g).ChecksOnlyInSource ∧
    (compareTable s t f).ChecksOnlyInTarget = (compareTable s t g).ChecksOnlyInTarget ∧
    (compareTable s t f).CheckDiffs = (compareTable s t g).CheckDiffs := by
  simp [compareTable, h1, h2, h3]

/-- C10: the unique-constraint facet is compared unconditionally: it always
equals the raw compareMaps of the two unique-constraint maps, and no filter
configuration (in particular none of the three suppression switches, in any
combination) changes it. -/
theorem C10_uniques_unconditional (s t : Table) (f g : FilterConfig) :
    ((compareTable s t f).UniquesOnlyInSource =
      (compareMaps s.UniqueConstraints t.UniqueConstraints compareUnique UniqueDiff.mk).1 ∧
     (compareTable s t f).UniquesOnlyInTarget =
      (compareMaps s.UniqueConstraints t.UniqueConstraints compareUnique UniqueDiff.mk).2.1 ∧
     (compareTable s t f).UniqueDiffs =
      (compareMaps s.UniqueConstraints t.UniqueConstraints compareUnique UniqueDiff.mk).2.2) ∧
    ((compareTable s t f).UniquesOnlyInSource = (compareTable s t g).UniquesOnlyInSource ∧
     (compareTable s t f).UniquesOnlyInTarget = (compareTable s t g).UniquesOnlyInTarget ∧
     (compareTable s t f).UniqueDiffs = (compareTable s t g).UniqueDiffs) :=
  ⟨⟨rfl, rfl, rfl⟩, ⟨rfl, rfl, rfl⟩⟩

/-- C7: comparePrimaryKey: no diff when both absent, an added/removed
message when exactly one side has a key, and an order-sensitive exact
comparison of the column lists when both are present, with a columns
message only on mismatch (equalStringSlices decides exact list equality). -/
theorem C7_comparePrimaryKey_spec :
    (comparePrimaryKey none none = "") ∧
    (∀ pk : PrimaryKey, comparePrimaryKey none (some pk) =
      "added: " ++ fmtStrList pk.Columns) ∧
    (∀ pk : PrimaryKey, comparePrimaryKey (some pk) none =
      "removed: " ++ fmtStrList pk.Columns) ∧
    (∀ a b : PrimaryKey, comparePrimaryKey (some a) (some b) =
      if a.Columns = b.Columns then ""
      else "columns: " ++ fmtStrList a.Columns ++ " → " ++ fmtStrList b.Columns) ∧
    (∀ xs ys : List String, equalStringSlices xs ys = true ↔ xs = ys) := by
  refine ⟨rfl, fun pk => rfl, fun pk => rfl, fun a b => ?_, equalStringSlices_iff⟩
  simp only [comparePrimaryKey]
  by_cases h : a.Columns = b.Columns
  · rw [if_pos ((equalStringSlices_iff _ _).mpr h), if_pos h]
  · rw [if_neg (fun hc => h ((equalStringSlices_iff _ _).mp hc)), if_neg h]
-- ============================================================================
-- SAMPLE DATA (used by witnesses)
-- ============================================================================

def sampleSrcTable : Table :=
  ⟨"t",
   [("c", ⟨"c", "int", false, none⟩)],
   some ⟨"pk", ["c"]⟩,
   [("fk1", ⟨"fk1", ["c"], "r", ["id"], "CASCADE", "NO ACTION"⟩)],
   [("u1", ⟨"u1", ["c"]⟩)],
   [("i1", ⟨"i1", ["c"], false⟩)],
   [("ck1", ⟨"ck1", "c > 0"⟩)]⟩

def sampleTgtTable : Table :=
  ⟨"t",
   [("c", ⟨"c", "bigint", false, none⟩)],
   none,
   [("fk2", ⟨"fk2", ["c"], "r2", ["id"], "CASCADE", "NO ACTION"⟩)],
   [("u1", ⟨"u1", ["d"]⟩)],
   [("i1", ⟨"i1", ["c"], true⟩)],
   []⟩

def sampleSrc : Schema := ⟨[("t", sampleSrcTable)]⟩

def sampleTgt : Schema := ⟨[("t", sampleTgtTable)]⟩

def filterAllSwitches : FilterConfig := ⟨[], none, [], true, true, true⟩

def filterIgnoreCols : FilterConfig := ⟨["x"], none, [("t", ["c"])], false, false, false⟩

def filterIgnoreT : FilterConfig := ⟨["t"], none, [], false, false, false⟩

/-- Witness for C4 at a concrete pair of schemas whose table differs in all
three suppressible facets. -/
theorem C4_facet_suppression_witness :
    filterAllSwitches.IgnoreForeignKeys = true ∧
    ((compareTable sampleSrcTable sampleTgtTable filterAllSwitches).ForeignKeysOnlyInSource = [] ∧
     (compareTable sampleSrcTable sampleTgtTable filterAllSwitches).ForeignKeysOnlyInTarget = [] ∧
     (compareTable sampleSrcTable sampleTgtTable filterAllSwitches).ForeignKeyDiffs = []) :=
  ⟨rfl, (C4_facet_suppression sampleSrc sampleTgt filterAllSwitches).1 rfl
    (compareTable sampleSrcTable sampleTgtTable filterAllSwitches)
    (List.mem_cons_self _ _)⟩

/-- Witness for C9 at a concrete table pair: a filter ignoring column c of
table t leaves every non-column facet of the diff unchanged. -/
theorem C9_ignore_columns_frame_witness :
    (compareTable sampleSrcTable sampleTgtTable filterIgnoreCols).PrimaryKeyDiff =
      (compareTable sampleSrcTable sampleTgtTable NewFilterConfig).PrimaryKeyDiff ∧
    (compareTable sampleSrcTable sampleTgtTable filterIgnoreCols).ForeignKeysOnlyInSource =
      (compareTable sampleSrcTable sampleTgtTable NewFilterConfig).ForeignKeysOnlyInSource ∧
    (compareTable sampleSrcTable sampleTgtTable filterIgnoreCols).ForeignKeysOnlyInTarget =
      (compareTable sampleSrcTable sampleTgtTable NewFilterConfig).ForeignKeysOnlyInTarget ∧
    (compareTable sampleSrcTable sampleTgtTable filterIgnoreCols).ForeignKeyDiffs =
      (compareTable sampleSrcTable sampleTgtTable NewFilterConfig).ForeignKeyDiffs ∧
    (compareTable sampleSrcTable sampleTgtTable filterIgnoreCols).UniquesOnlyInSource =
      (compareTable sampleSrcTable sampleTgtTable NewFilterConfig).UniquesOnlyInSource ∧
    (compareTable sampleSrcTable sampleTgtTable filterIgnoreCols).UniquesOnlyInTarget =
      (compareTable sampleSrcTable sampleTgtTable NewFilterConfig).UniquesOnlyInTarget ∧
    (compareTable sampleSrcTable sampleTgtTable filterIgnoreCols).UniqueDiffs =
      (compareTable sampleSrcTable sampleTgtTable NewFilterConfig).UniqueDiffs ∧
    (compareTable sampleSrcTable sampleTgtTable filterIgnoreCols).IndexesOnlyInSource =
      (compareTable sampleSrcTable sampleTgtTable NewFilterConfig).IndexesOnlyInSource ∧
    (compareTable sampleSrcTable sampleTgtTable filterIgnoreCols).IndexesOnlyInTarget =
      (compareTable sampleSrcTable sampleTgtTable NewFilterConfig).IndexesOnlyInTarget ∧
    (compareTable sampleSrcTable sampleTgtTable filterIgnoreCols).IndexDiffs =
      (compareTable sampleSrcTable sampleTgtTable NewFilterConfig).IndexDiffs ∧
    (compareTable sampleSrcTable sampleTgtTable filterIgnoreCols).ChecksOnlyInSource =
      (compareTable sampleSrcTable sampleTgtTable NewFilterConfig).ChecksOnlyInSource ∧
    (compareTable sampleSrcTable sampleTgtTable filterIgnoreCols).ChecksOnlyInTarget =
      (compareTable sampleSrcTable sampleTgtTable NewFilterConfig).ChecksOnlyInTarget ∧
    (compareTable sampleSrcTable sampleTgtTable filterIgnoreCols).CheckDiffs =
      (compareTable sampleSrcTable sampleTgtTable NewFilterConfig).CheckDiffs :=
  C9_ignore_columns_frame sampleSrcTable sampleTgtTable filterIgnoreCols NewFilterConfig rfl rfl rfl

-- ============================================================================
-- TABLE FILTERING (claim C3)
-- ============================================================================

/-- Extraction stores each table under its own name, so a well-formed schema
has each table value's Name field equal to its map key. -/
def NameCoherent (s : Schema) : Prop :=
  ∀ p ∈ s.Tables, (p.2 : Table).Name = p.1

/-- C3: an ignored table name (exact or pattern match) appears nowhere in
the output: not among the tables only in source, not among the tables only
in target, and no TableDiff is produced for it. -/
theorem C3_ignored_table_absent (src tgt : Schema) (f : FilterConfig) (name : String)
    (hig : f.ShouldIgnoreTable name = true) (hcoh : NameCoherent src) :
    name ∉ (ComputeDiff src tgt f).TablesOnlyInSource ∧
    name ∉ (ComputeDiff src tgt f).TablesOnlyInTarget ∧
    ∀ td ∈ (ComputeDiff src tgt f).TableDiffs, td.TableName ≠ name := by
  refine ⟨?_, ?_, ?_⟩
  · intro hm
    simp only [ComputeDiff] at hm
    rw [List.mem_filter] at hm
    have h2 := hm.2
    rw [hig] at h2
    simp at h2
  · intro hm
    simp only [ComputeDiff] at hm
    rw [List.mem_filter] at hm
    have h2 := hm.2
    rw [hig] at h2
    simp at h2
  · intro td hm
    simp only [ComputeDiff] at hm
    rw [List.mem_filterMap] at hm
    obtain ⟨k, hk, hf⟩ := hm
    split at hf
    · rename_i hguard
      split at hf
      · rename_i st tt hst htt
        split at hf
        · injection hf with hf
          intro hEq
          have hstk : st.Name = k := hcoh (k, st) (mem_of_findVal_eq_some hst)
          have hkn : k = name := by
            rw [← hEq, ← hf]
            exact hstk.symm
          rw [Bool.and_eq_true] at hguard
          rw [hkn, hig] at hguard
          simp at hguard
        · simp at hf
      · simp at hf
    · simp at hf

/-- Witness for C3: with table t ignored by exact name, t is reported
nowhere even though the two sides of the sample schemas differ on it. -/
theorem C3_ignored_table_absent_witness :
    filterIgnoreT.ShouldIgnoreTable "t" = true ∧
    "t" ∉ (ComputeDiff sampleSrc sampleTgt filterIgnoreT).TablesOnlyInSource ∧
    "t" ∉ (ComputeDiff sampleSrc sampleTgt filterIgnoreT).TablesOnlyInTarget :=
  ⟨by decide,
    (C3_ignored_table_absent sampleSrc sampleTgt filterIgnoreT "t" (by decide)
      (by unfold NameCoherent; decide)).1,
    (C3_ignored_table_absent sampleSrc sampleTgt filterIgnoreT "t" (by decide)
      (by unfold NameCoherent; decide)).2.1⟩
-- ============================================================================
-- MIGRATION GENERATION  (main.go lines 1248-1362, claim C8)
-- ============================================================================

/-- generateTableMigrations (main.go line 1283): the per-table migration
lines, in source order of the eleven emission blocks. -/
def generateTableMigrations (diff : TableDiff) (driver : String) : List String :=
  (diff.ColumnsOnlyInTarget.map fun colName =>
    "ALTER TABLE " ++ diff.TableName ++ " ADD COLUMN " ++ colName ++
      ";  -- Column exists in target") ++
  (diff.ColumnsOnlyInSource.map fun colName =>
    "-- ALTER TABLE " ++ diff.TableName ++ " DROP COLUMN " ++ colName ++
      ";  -- Column exists in source but not in target") ++
  (diff.ColumnDiffs.map fun colDiff =>
    if driver = "postgres" then
      "-- ALTER TABLE " ++ diff.TableName ++ " ALTER COLUMN " ++ colDiff.ColumnName ++
        " ...;  -- " ++ colDiff.Diff
    else
      "-- ALTER TABLE " ++ diff.TableName ++ " MODIFY COLUMN " ++ colDiff.ColumnName ++
        " ...;  -- " ++ colDiff.Diff) ++
  (diff.IndexesOnlyInTarget.map fun idxName =>
    "-- CREATE INDEX " ++ idxName ++ " ON " ++ diff.TableName ++
      " (...);  -- Index exists in target") ++
  (diff.IndexesOnlyInSource.map fun idxName =>
    if driver = "postgres" then
      "-- DROP INDEX " ++ idxName ++ ";  -- Index exists in source but not in target"
    else
      "-- DROP INDEX " ++ idxName ++ " ON " ++ diff.TableName ++
        ";  -- Index exists in source but not in target") ++
  (diff.ForeignKeysOnlyInTarget.map fun fkName =>
    "-- ALTER TABLE " ++ diff.TableName ++ " ADD CONSTRAINT " ++ fkName ++
      " FOREIGN KEY (...) REFERENCES ...;  -- FK exists in target") ++
  (diff.ForeignKeysOnlyInSource.map fun fkName =>
    if driver = "postgres" then
      "-- ALTER TABLE " ++ diff.TableName ++ " DROP CONSTRAINT " ++ fkName ++
        ";  -- FK exists in source but not in target"
    else
      "-- ALTER TABLE " ++ diff.TableName ++ " DROP FOREIGN KEY " ++ fkName ++
        ";  -- FK exists in source but not in target") ++
  (diff.UniquesOnlyInTarget.map fun uqName =>
    "-- ALTER TABLE " ++ diff.TableName ++ " ADD CONSTRAINT " ++ uqName ++
      " UNIQUE (...);  -- Unique constraint exists in target") ++
  (diff.UniquesOnlyInSource.map fun uqName =>
    if driver = "postgres" then
      "-- ALTER TABLE " ++ diff.TableName ++ " DROP CONSTRAINT " ++ uqName ++
        ";  -- Unique constraint exists in source but not in target"
    else
      "-- ALTER TABLE " ++ diff.TableName ++ " DROP INDEX " ++ uqName ++
        ";  -- Unique constraint exists in source but not in target") ++
  (diff.ChecksOnlyInTarget.map fun chkName =>
    "-- ALTER TABLE " ++ diff.TableName ++ " ADD CONSTRAINT " ++ chkName ++
      " CHECK (...);  -- Check constraint exists in target") ++
  (diff.ChecksOnlyInSource.map fun chkName =>
    if driver = "postgres" then
      "-- ALTER TABLE " ++ diff.TableName ++ " DROP CONSTRAINT " ++ chkName ++
        ";  -- Check constraint exists in source but not in target"
    else
      "-- ALTER TABLE " ++ diff.TableName ++ " DROP CHECK " ++ chkName ++
        ";  -- Check constraint exists in source but not in target")

/-- The migrations slice built by GenerateMigrationSQL (main.go lines
1249-1270) before the empty check and the join. -/
def buildMigrations (diff : SchemaDiff) (driver : String) : List String :=
  (diff.TablesOnlyInTarget.map fun tableName =>
    ["-- Table \x27" ++ tableName ++ "\x27 exists in target but not in source",
     "-- Manual review required for table: " ++ tableName ++ "\n"]).flatten ++
  (diff.TablesOnlyInSource.map fun tableName =>
    "-- DROP TABLE " ++ tableName ++ ";  -- Table exists in source but not in target\n") ++
  (diff.TableDiffs.map fun tableDiff =>
    let tableMigrations := generateTableMigrations tableDiff driver
    if tableMigrations.length > 0 then
      ("-- Migrations for table: " ++ tableDiff.TableName) :: (tableMigrations ++ [""])
    else []).flatten

/-- The disclaimer header (main.go lines 1276-1278). -/
def migrationHeader (driver : String) : String :=
  "-- Migration SQL generated for " ++ driver ++ "\n" ++
  "-- Review and test these statements before applying to production!\n" ++
  "-- Some statements may need manual adjustment.\n\n"

/-- GenerateMigrationSQL (main.go line 1248). -/
def GenerateMigrationSQL (diff : SchemaDiff) (driver : String) : String :=
  let migrations := buildMigrations diff driver
  if migrations.length = 0 then "-- No migrations needed\n"
  else migrationHeader driver ++ joinSep "\n" migrations

theorem dashdash_extend (p r : String) (h : ("--").data <+: p.data) :
    ("--").data <+: (p ++ r).data := by
  rw [String.data_append]
  exact h.trans (List.prefix_append _ _)

theorem generateTableMigrations_lines (td : TableDiff) (driver : String) :
    ∀ line ∈ generateTableMigrations td driver,
      ("--").data <+: line.data ∨
      ∃ c ∈ td.ColumnsOnlyInTarget,
        line = "ALTER TABLE " ++ td.TableName ++ " ADD COLUMN " ++ c ++
          ";  -- Column exists in target" := by
  intro line h
  unfold generateTableMigrations at h
  simp only [List.mem_append] at h
  rcases h with ((((((((((h | h) | h) | h) | h) | h) | h) | h) | h) | h) | h)
  · obtain ⟨c, hc, rfl⟩ := List.mem_map.mp h
    exact Or.inr ⟨c, hc, rfl⟩
  · obtain ⟨c, hc, rfl⟩ := List.mem_map.mp h
    refine Or.inl ?_
    try split
    all_goals repeat apply dashdash_extend
    all_goals decide
  · obtain ⟨c, hc, rfl⟩ := List.mem_map.mp h
    refine Or.inl ?_
    try split
    all_goals repeat apply dashdash_extend
    all_goals decide
  · obtain ⟨c, hc, rfl⟩ := List.mem_map.mp h
    refine Or.inl ?_
    try split
    all_goals repeat apply dashdash_extend
    all_goals decide
  · obtain ⟨c, hc, rfl⟩ := List.mem_map.mp h
    refine Or.inl ?_
    try split
    all_goals repeat apply dashdash_extend
    all_goals decide
  · obtain ⟨c, hc, rfl⟩ := List.mem_map.mp h
    refine Or.inl ?_
    try split
    all_goals repeat apply dashdash_extend
    all_goals decide
  · obtain ⟨c, hc, rfl⟩ := List.mem_map.mp h
    refine Or.inl ?_
    try split
    all_goals repeat apply dashdash_extend
    all_goals decide
  · obtain ⟨c, hc, rfl⟩ := List.mem_map.mp h
    refine Or.inl ?_
    try split
    all_goals repeat apply dashdash_extend
    all_goals decide
  · obtain ⟨c, hc, rfl⟩ := List.mem_map.mp h
    refine Or.inl ?_
    try split
    all_goals repeat apply dashdash_extend
    all_goals decide
  · obtain ⟨c, hc, rfl⟩ := List.mem_map.mp h
    refine Or.inl ?_
    try split
    all_goals repeat apply dashdash_extend
    all_goals decide
  · obtain ⟨c, hc, rfl⟩ := List.mem_map.mp h
    refine Or.inl ?_
    try split
    all_goals repeat apply dashdash_extend
    all_goals decide
def pkOnlyTableDiff : TableDiff :=
  ⟨"t", [], [], [], some "removed: [c]", [], [], [], [], [], [], [], [], [], [], [], []⟩

def pkOnlyDiff : SchemaDiff := ⟨[], [], [pkOnlyTableDiff]⟩

def emptySchemaDiff : SchemaDiff := ⟨[], [], []⟩

def dropOnlyDiff : SchemaDiff := ⟨["t"], [], []⟩

/-- C8 counterexample: a non-empty SchemaDiff (one TableDiff whose only
content is a primary-key change) produces the bare no-migrations line, which
is not prefixed by the disclaimer header — so the output is not always
header-prefixed as the claim states. -/
theorem C8_counterexample :
    isDiffEmpty pkOnlyDiff = false ∧
    GenerateMigrationSQL pkOnlyDiff "postgres" = "-- No migrations needed\n" ∧
    ¬ (migrationHeader "postgres").data <+:
        (GenerateMigrationSQL pkOnlyDiff "postgres").data :=
  ⟨rfl, rfl, by decide⟩

/-- C8 (amended): whenever at least one migration statement is generated the
output is exactly the disclaimer header followed by the joined statements
(hence header-prefixed), and whenever no statement is generated — in
particular for every empty diff — the output is exactly the no-migrations
line; the only statements not starting with a comment marker are ALTER TABLE
ADD COLUMN statements for ColumnsOnlyInTarget entries, carrying no
type/nullable/default clause. -/
theorem C8_migration_sql (diff : SchemaDiff) (driver : String) :
    (buildMigrations diff driver ≠ [] →
      GenerateMigrationSQL diff driver =
        migrationHeader driver ++ joinSep "\n" (buildMigrations diff driver)) ∧
    (buildMigrations diff driver = [] →
      GenerateMigrationSQL diff driver = "-- No migrations needed\n") ∧
    (diff.TablesOnlyInSource = [] → diff.TablesOnlyInTarget = [] → diff.TableDiffs = [] →
      buildMigrations diff driver = []) ∧
    (∀ line ∈ buildMigrations diff driver,
      ("--").data <+: line.data ∨ line = "" ∨
      ∃ td ∈ diff.TableDiffs, ∃ c ∈ td.ColumnsOnlyInTarget,
        line = "ALTER TABLE " ++ td.TableName ++ " ADD COLUMN " ++ c ++
          ";  -- Column exists in target") := by
  refine ⟨?_, ?_, ?_, ?_⟩
  · intro h
    simp only [GenerateMigrationSQL]
    rw [if_neg (fun hc => h (List.eq_nil_of_length_eq_zero hc))]
  · intro h
    simp only [GenerateMigrationSQL]
    rw [h]
    rfl
  · intro h1 h2 h3
    simp only [buildMigrations]
    rw [h1, h2, h3]
    rfl
  · intro line hm
    simp only [buildMigrations] at hm
    simp only [List.mem_append] at hm
    rcases hm with (hm | hm) | hm
    · rw [List.mem_flatten] at hm
      obtain ⟨l, hl, hline⟩ := hm
      obtain ⟨tn, htn, rfl⟩ := List.mem_map.mp hl
      simp only [List.mem_cons, List.mem_singleton] at hline
      rcases hline with h | h | h
      · subst h
        refine Or.inl ?_
        repeat apply dashdash_extend
        decide
      · subst h
        refine Or.inl ?_
        repeat apply dashdash_extend
        decide
      · cases h
    · obtain ⟨tn, htn, rfl⟩ := List.mem_map.mp hm
      refine Or.inl ?_
      repeat apply dashdash_extend
      decide
    · rw [List.mem_flatten] at hm
      obtain ⟨l, hl, hline⟩ := hm
      obtain ⟨td, htd, rfl⟩ := List.mem_map.mp hl
      split at hline
      · rcases List.mem_cons.mp hline with h | h
        · subst h
          refine Or.inl ?_
          repeat apply dashdash_extend
          decide
        · rcases List.mem_append.mp h with h | h
          · rcases generateTableMigrations_lines td driver line h with h | ⟨c, hc, rfl⟩
            · exact Or.inl h
            · exact Or.inr (Or.inr ⟨td, htd, c, hc, rfl⟩)
          · simp only [List.mem_singleton] at h
            subst h
            exact Or.inr (Or.inl rfl)
      · simp at hline

/-- Witness for C8 (amended): a diff with one dropped table generates a
statement, so its output is the header followed by the statements; the
primary-key-only diff and the empty diff generate no statement and yield the
bare line. -/
theorem C8_migration_sql_witness :
    GenerateMigrationSQL dropOnlyDiff "postgres" =
      migrationHeader "postgres" ++
        joinSep "\n" (buildMigrations dropOnlyDiff "postgres") ∧
    GenerateMigrationSQL pkOnlyDiff "postgres" = "-- No migrations needed\n" ∧
    buildMigrations emptySchemaDiff "postgres" = [] :=
  ⟨(C8_migration_sql dropOnlyDiff "postgres").1 (List.cons_ne_nil _ _),
   (C8_migration_sql pkOnlyDiff "postgres").2.1 rfl,
   (C8_migration_sql emptySchemaDiff "postgres").2.2.1 rfl rfl rfl⟩
-- ============================================================================
-- SCHEMA EXTRACTION  (main.go lines 186-980, claim C6)
-- ============================================================================

/-- Whether an Except-valued call succeeded. -/
def exceptIsOk {α : Type} : Except String α → Bool
  | .ok _ => true
  | .error _ => false

/-- The database as seen by a PostgreSQL extraction run: each catalog query
of the dialect (getTables and the six per-table metadata queries) is
modelled as an atomic fallible call returning its parsed rows. -/
structure PgDb where
  getTables : Except String (List String)
  extractColumns : String → Except String (List (String × Column))
  extractPrimaryKey : String → Except String (Option PrimaryKey)
  extractForeignKeys : String → Except String (List (String × ForeignKey))
  extractUniqueConstraints : String → Except String (List (String × Unique))
  extractIndexes : String → Except String (List (String × Index))
  extractCheckConstraints : String → Except String (List (String × CheckConstr))

/-- One table's metadata pulled by the sequential PostgresDialect
ExtractSchema loop body (main.go lines 197-237): any query error is
returned as-is, with no added context. -/
def pgExtractTable (db : PgDb) (tableName : String) : Except String Table :=
  match db.extractColumns tableName with
  | .error e => .error e
  | .ok cols =>
    match db.extractPrimaryKey tableName with
    | .error e => .error e
    | .ok pk =>
      match db.extractForeignKeys tableName with
      | .error e => .error e
      | .ok fks =>
        match db.extractUniqueConstraints tableName with
        | .error e => .error e
        | .ok uqs =>
          match db.extractIndexes tableName with
          | .error e => .error e
          | .ok idxs =>
            match db.extractCheckConstraints tableName with
            | .error e => .error e
            | .ok chks => .ok ⟨tableName, cols, pk, fks, uqs, idxs, chks⟩

/-- The sequential per-table loop: tables processed in order, aborting on
the first failure (main.go lines 197-238). -/
def buildTables (g : String → Except String Table) :
    List String → List (String × Table) → Except String (List (String × Table))
  | [], acc => .ok acc
  | t :: rest, acc =>
    match g t with
    | .error e => .error e
    | .ok table => buildTables g rest (acc ++ [(t, table)])

/-- PostgresDialect.ExtractSchema (main.go line 188). -/
def pgExtractSchema (db : PgDb) : Except String Schema :=
  match db.getTables with
  | .error e => .error e
  | .ok tables =>
    match buildTables (pgExtractTable db) tables [] with
    | .error e => .error e
    | .ok pairs => .ok ⟨pairs⟩

/-- The error-wrapping format used by the parallel extraction goroutines
(main.go lines 272-300): Errorf of "error extracting FACET for TABLE: ERR". -/
def wrapErr (facet tableName err : String) : String :=
  "error extracting " ++ facet ++ " for " ++ tableName ++ ": " ++ err

def pgFacetLabels : List String :=
  ["columns", "primary key", "foreign keys", "unique constraints", "indexes",
   "check constraints"]

/-- One table's metadata as pulled by a parallel-extraction goroutine
(main.go lines 262-301): same queries, but each failure is wrapped with the
facet and table name. -/
def pgExtractTableWrapped (db : PgDb) (tName : String) : Except String Table :=
  match db.extractColumns tName with
  | .error e => .error (wrapErr "columns" tName e)
  | .ok cols =>
    match db.extractPrimaryKey tName with
    | .error e => .error (wrapErr "primary key" tName e)
    | .ok pk =>
      match db.extractForeignKeys tName with
      | .error e => .error (wrapErr "foreign keys" tName e)
      | .ok fks =>
        match db.extractUniqueConstraints tName with
        | .error e => .error (wrapErr "unique constraints" tName e)
        | .ok uqs =>
          match db.extractIndexes tName with
          | .error e => .error (wrapErr "indexes" tName e)
          | .ok idxs =>
            match db.extractCheckConstraints tName with
            | .error e => .error (wrapErr "check constraints" tName e)
            | .ok chks => .ok ⟨tName, cols, pk, fks, uqs, idxs, chks⟩

/-- The errors landing in the buffered error channel, determinized to table
order (in the Go code the goroutines race, so which error is received first
is non-deterministic; every surfaced error is one of these). -/
def collectErrs (g : String → Except String Table) (tables : List String) : List String :=
  tables.filterMap fun t =>
    match g t with
    | .error e => some e
    | .ok _ => none

/-- PostgresDialect.ExtractSchemaParallel (main.go line 243): all per-table
tasks run, errors are collected, and if any task failed one collected error
is returned with no schema; otherwise the assembled schema is returned. -/
def pgExtractSchemaParallel (db : PgDb) : Except String Schema :=
  match db.getTables with
  | .error e => .error e
  | .ok tables =>
    match collectErrs (pgExtractTableWrapped db) tables with
    | e :: _ => .error e
    | [] => .ok ⟨tables.filterMap fun t =>
        match pgExtractTableWrapped db t with
        | .ok table => some (t, table)
        | .error _ => none⟩

/-- The database as seen by a MySQL extraction run; the per-table queries
also take the database name obtained from SELECT DATABASE(). -/
structure MyDb where
  getDbName : Except String String
  getTables : String → Except String (List String)
  extractColumns : String → String → Except String (List (String × Column))
  extractPrimaryKey : String → String → Except String (Option PrimaryKey)
  extractForeignKeys : String → String → Except String (List (String × ForeignKey))
  extractUniqueConstraints : String → String → Except String (List (String × Unique))
  extractIndexes : String → String → Except String (List (String × Index))
  extractCheckConstraints : String → String → Except String (List (String × CheckConstr))

/-- One table's metadata pulled by the sequential MySQLDialect ExtractSchema
loop body (main.go lines 598-639): the first five facets abort on error
(unwrapped); a check-constraint query error is deliberately ignored for
older MySQL versions (main.go lines 633-637), leaving the table's check set
as whatever was scanned, i.e. empty when the query itself fails. -/
def myExtractTable (db : MyDb) (dbName tableName : String) : Except String Table :=
  match db.extractColumns dbName tableName with
  | .error e => .error e
  | .ok cols =>
    match db.extractPrimaryKey dbName tableName with
    | .error e => .error e
    | .ok pk =>
      match db.extractForeignKeys dbName tableName with
      | .error e => .error e
      | .ok fks =>
        match db.extractUniqueConstraints dbName tableName with
        | .error e => .error e
        | .ok uqs =>
          match db.extractIndexes dbName tableName with
          | .error e => .error e
          | .ok idxs =>
            match db.extractCheckConstraints dbName tableName with
            | .error _ => .ok ⟨tableName, cols, pk, fks, uqs, idxs, []⟩
            | .ok chks => .ok ⟨tableName, cols, pk, fks, uqs, idxs, chks⟩

/-- MySQLDialect.ExtractSchema (main.go line 583). -/
def myExtractSchema (db : MyDb) : Except String Schema :=
  match db.getDbName with
  | .error e => .error e
  | .ok dbName =>
    match db.getTables dbName with
    | .error e => .error e
    | .ok tables =>
      match buildTables (myExtractTable db dbName) tables [] with
      | .error e => .error e
      | .ok pairs => .ok ⟨pairs⟩

/-- One table's metadata as pulled by a MySQL parallel-extraction goroutine
(main.go lines 670-714): wrapped errors, check failures still ignored. -/
def myExtractTableWrapped (db : MyDb) (dbName tName : String) : Except String Table :=
  match db.extractColumns dbName tName with
  | .error e => .error (wrapErr "columns" tName e)
  | .ok cols =>
    match db.extractPrimaryKey dbName tName with
    | .error e => .error (wrapErr "primary key" tName e)
    | .ok pk =>
      match db.extractForeignKeys dbName tName with
      | .error e => .error (wrapErr "foreign keys" tName e)
      | .ok fks =>
        match db.extractUniqueConstraints dbName tName with
        | .error e => .error (wrapErr "unique constraints" tName e)
        | .ok uqs =>
          match db.extractIndexes dbName tName with
          | .error e => .error (wrapErr "indexes" tName e)
          | .ok idxs =>
            match db.extractCheckConstraints dbName tName with
            | .error _ => .ok ⟨tName, cols, pk, fks, uqs, idxs, []⟩
            | .ok chks => .ok ⟨tName, cols, pk, fks, uqs, idxs, chks⟩

/-- MySQLDialect.ExtractSchemaParallel (main.go line 645). -/
def myExtractSchemaParallel (db : MyDb) : Except String Schema :=
  match db.getDbName with
  | .error e => .error e
  | .ok dbName =>
    match db.getTables dbName with
    | .error e => .error e
    | .ok tables =>
      match collectErrs (myExtractTableWrapped db dbName) tables with
      | e :: _ => .error e
      | [] => .ok ⟨tables.filterMap fun t =>
          match myExtractTableWrapped db dbName t with
          | .ok table => some (t, table)
          | .error _ => none⟩
theorem buildTables_ok_all {g : String → Except String Table} :
    ∀ (l : List String) (acc : List (String × Table)),
      exceptIsOk (buildTables g l acc) = true → ∀ t ∈ l, exceptIsOk (g t) = true
  | [], _, _, t, ht => absurd ht (List.not_mem_nil t)
  | x :: rest, acc, h, t, ht => by
    unfold buildTables at h
    cases hg : g x with
    | error e => rw [hg] at h; simp [exceptIsOk] at h
    | ok table =>
      rw [hg] at h
      rcases List.mem_cons.mp ht with he | he
      · subst he; simp [exceptIsOk, hg]
      · exact buildTables_ok_all rest _ h t he

theorem buildTables_error_raw {g : String → Except String Table} :
    ∀ (l : List String) (acc : List (String × Table)) (e : String),
      buildTables g l acc = .error e → ∃ t ∈ l, g t = .error e
  | [], _, e, h => by simp [buildTables] at h
  | x :: rest, acc, e, h => by
    unfold buildTables at h
    cases hg : g x with
    | error e2 =>
      rw [hg] at h
      injection h with h
      exact ⟨x, List.mem_cons_self _ _, by rw [hg, h]⟩
    | ok table =>
      rw [hg] at h
      obtain ⟨t, ht, he⟩ := buildTables_error_raw rest _ e h
      exact ⟨t, List.mem_cons_of_mem _ ht, he⟩

theorem buildTables_fails_of_mem {g : String → Except String Table} :
    ∀ (l : List String) (acc : List (String × Table)) (t : String),
      t ∈ l → exceptIsOk (g t) = false → exceptIsOk (buildTables g l acc) = false
  | [], _, t, ht, _ => absurd ht (List.not_mem_nil t)
  | x :: rest, acc, t, ht, hf => by
    unfold buildTables
    cases hg : g x with
    | error e => simp [exceptIsOk]
    | ok table =>
      rcases List.mem_cons.mp ht with he | he
      · subst he; rw [hg] at hf; simp [exceptIsOk] at hf
      · exact buildTables_fails_of_mem rest _ t he hf

theorem collectErrs_mem {g : String → Except String Table} {tables : List String} {e : String}
    (h : e ∈ collectErrs g tables) : ∃ t ∈ tables, g t = .error e := by
  unfold collectErrs at h
  rw [List.mem_filterMap] at h
  obtain ⟨t, ht, hf⟩ := h
  refine ⟨t, ht, ?_⟩
  cases hg : g t with
  | error e2 =>
    rw [hg] at hf
    injection hf with hf
    rw [hf]
  | ok table => rw [hg] at hf; cases hf

theorem collectErrs_ne_nil_of_fails {g : String → Except String Table} {tables : List String}
    {t : String} (ht : t ∈ tables) (hf : exceptIsOk (g t) = false) :
    collectErrs g tables ≠ [] := by
  intro hnil
  cases hg : g t with
  | ok table => rw [hg] at hf; simp [exceptIsOk] at hf
  | error e =>
    have hm : e ∈ collectErrs g tables := by
      unfold collectErrs
      rw [List.mem_filterMap]
      exact ⟨t, ht, by rw [hg]⟩
    rw [hnil] at hm
    exact absurd hm (List.not_mem_nil e)

theorem pgExtractTableWrapped_error_shape (db : PgDb) (t e : String)
    (h : pgExtractTableWrapped db t = .error e) :
    ∃ facet ∈ pgFacetLabels, ∃ raw, e = wrapErr facet t raw := by
  unfold pgExtractTableWrapped at h
  split at h
  · injection h with h2; exact ⟨"columns", by decide, _, h2.symm⟩
  · split at h
    · injection h with h2; exact ⟨"primary key", by decide, _, h2.symm⟩
    · split at h
      · injection h with h2; exact ⟨"foreign keys", by decide, _, h2.symm⟩
      · split at h
        · injection h with h2; exact ⟨"unique constraints", by decide, _, h2.symm⟩
        · split at h
          · injection h with h2; exact ⟨"indexes", by decide, _, h2.symm⟩
          · split at h
            · injection h with h2; exact ⟨"check constraints", by decide, _, h2.symm⟩
            · cases h

theorem myExtractTableWrapped_error_shape (db : MyDb) (dbName t e : String)
    (h : myExtractTableWrapped db dbName t = .error e) :
    ∃ facet ∈ pgFacetLabels, ∃ raw, e = wrapErr facet t raw := by
  unfold myExtractTableWrapped at h
  split at h
  · injection h with h2; exact ⟨"columns", by decide, _, h2.symm⟩
  · split at h
    · injection h with h2; exact ⟨"primary key", by decide, _, h2.symm⟩
    · split at h
      · injection h with h2; exact ⟨"foreign keys", by decide, _, h2.symm⟩
      · split at h
        · injection h with h2; exact ⟨"unique constraints", by decide, _, h2.symm⟩
        · split at h
          · injection h with h2; exact ⟨"indexes", by decide, _, h2.symm⟩
          · split at h
            · cases h
            · cases h

theorem myExtractTable_isOk (db : MyDb) (dbName t : String) :
    exceptIsOk (myExtractTable db dbName t) =
      (exceptIsOk (db.extractColumns dbName t) && exceptIsOk (db.extractPrimaryKey dbName t) &&
       exceptIsOk (db.extractForeignKeys dbName t) &&
       exceptIsOk (db.extractUniqueConstraints dbName t) &&
       exceptIsOk (db.extractIndexes dbName t)) := by
  unfold myExtractTable
  cases h1 : db.extractColumns dbName t <;> simp [exceptIsOk, h1]
  cases h2 : db.extractPrimaryKey dbName t <;> simp [exceptIsOk, h2]
  cases h3 : db.extractForeignKeys dbName t <;> simp [exceptIsOk, h3]
  cases h4 : db.extractUniqueConstraints dbName t <;> simp [exceptIsOk, h4]
  cases h5 : db.extractIndexes dbName t <;> simp [exceptIsOk, h5]
  cases h6 : db.extractCheckConstraints dbName t <;> simp [exceptIsOk, h6]
def pgDbBoom : PgDb :=
  { getTables := .ok ["t1"]
    extractColumns := fun _ => .error "boom"
    extractPrimaryKey := fun _ => .ok none
    extractForeignKeys := fun _ => .ok []
    extractUniqueConstraints := fun _ => .ok []
    extractIndexes := fun _ => .ok []
    extractCheckConstraints := fun _ => .ok [] }

/-- C6 counterexample: when the columns query of table t1 fails with "boom",
the sequential PostgreSQL ExtractSchema returns the raw error "boom", which
mentions neither the failing table nor the failing facet (not even as a
substring), while only the parallel variant returns the wrapped error. -/
theorem C6_counterexample :
    pgExtractSchema pgDbBoom = .error "boom" ∧
    pgExtractSchemaParallel pgDbBoom = .error (wrapErr "columns" "t1" "boom") ∧
    ¬ ("t1").data <:+: ("boom").data ∧
    ¬ ("columns").data <:+: ("boom").data :=
  ⟨rfl, rfl, by decide, by decide⟩

/-- C6 (amended): any failing per-table metadata query aborts extraction
with an error and no schema, on both dialects and in both modes (sequential
and parallel), except MySQL check-constraint queries whose failures are
ignored; the parallel variants wrap the surfaced error with the failing
table's name and facet, while the sequential variants of both dialects
return the underlying query error unwrapped. -/
theorem C6_extraction_error_policy :
    (∀ (db : PgDb) (tables : List String) (t : String),
      db.getTables = .ok tables → t ∈ tables →
      exceptIsOk (pgExtractTable db t) = false →
      exceptIsOk (pgExtractSchema db) = false) ∧
    (∀ (db : PgDb) (e : String), pgExtractSchema db = .error e →
      db.getTables = .error e ∨
      ∃ tables, db.getTables = .ok tables ∧ ∃ t ∈ tables, pgExtractTable db t = .error e) ∧
    (∀ (db : PgDb) (tables : List String) (t : String),
      db.getTables = .ok tables → t ∈ tables →
      exceptIsOk (pgExtractTableWrapped db t) = false →
      exceptIsOk (pgExtractSchemaParallel db) = false) ∧
    (∀ (db : PgDb) (tables : List String) (e : String),
      db.getTables = .ok tables → pgExtractSchemaParallel db = .error e →
      ∃ t ∈ tables, ∃ facet ∈ pgFacetLabels, ∃ raw, e = wrapErr facet t raw) ∧
    (∀ (db : MyDb) (dbName t : String),
      exceptIsOk (myExtractTable db dbName t) =
        (exceptIsOk (db.extractColumns dbName t) && exceptIsOk (db.extractPrimaryKey dbName t) &&
         exceptIsOk (db.extractForeignKeys dbName t) &&
         exceptIsOk (db.extractUniqueConstraints dbName t) &&
         exceptIsOk (db.extractIndexes dbName t))) ∧
    (∀ (db : MyDb) (dbName : String) (tables : List String) (t : String),
      db.getDbName = .ok dbName → db.getTables dbName = .ok tables → t ∈ tables →
      exceptIsOk (myExtractTable db dbName t) = false →
      exceptIsOk (myExtractSchema db) = false) ∧
    (∀ (db : MyDb) (e : String), myExtractSchema db = .error e →
      db.getDbName = .error e ∨
      ∃ dbName, db.getDbName = .ok dbName ∧
        (db.getTables dbName = .error e ∨
         ∃ tables, db.getTables dbName = .ok tables ∧
           ∃ t ∈ tables, myExtractTable db dbName t = .error e)) ∧
    (∀ (db : MyDb) (dbName : String) (tables : List String) (t : String),
      db.getDbName = .ok dbName → db.getTables dbName = .ok tables → t ∈ tables →
      exceptIsOk (myExtractTableWrapped db dbName t) = false →
      exceptIsOk (myExtractSchemaParallel db) = false) ∧
    (∀ (db : MyDb) (dbName : String) (tables : List String) (e : String),
      db.getDbName = .ok dbName → db.getTables dbName = .ok tables →
      myExtractSchemaParallel db = .error e →
      ∃ t ∈ tables, ∃ facet ∈ pgFacetLabels, ∃ raw, e = wrapErr facet t raw) := by
  refine ⟨?_, ?_, ?_, ?_, myExtractTable_isOk, ?_, ?_, ?_, ?_⟩
  · intro db tables t hg ht hf
    have hred : pgExtractSchema db =
        (match buildTables (pgExtractTable db) tables [] with
          | Except.error e => (Except.error e : Except String Schema)
          | Except.ok pairs => Except.ok ⟨pairs⟩) := by
      unfold pgExtractSchema
      rw [hg]
    rw [hred]
    have hfail := buildTables_fails_of_mem tables [] t ht hf
    cases hb : buildTables (pgExtractTable db) tables [] with
    | error e => simp [exceptIsOk]
    | ok pairs => rw [hb] at hfail; simp [exceptIsOk] at hfail
  · intro db e h
    unfold pgExtractSchema at h
    split at h
    · rename_i e2 heq
      injection h with h
      exact Or.inl (heq.trans (by rw [h]))
    · rename_i tables heq
      split at h
      · rename_i e2 heq2
        injection h with h
        subst h
        exact Or.inr ⟨tables, heq, buildTables_error_raw tables [] e2 heq2⟩
      · cases h
  · intro db tables t hg ht hf
    have hred : pgExtractSchemaParallel db =
        (match collectErrs (pgExtractTableWrapped db) tables with
          | e :: _ => (Except.error e : Except String Schema)
          | [] => Except.ok ⟨tables.filterMap fun u =>
              match pgExtractTableWrapped db u with
              | Except.ok table => some (u, table)
              | Except.error _ => none⟩) := by
      unfold pgExtractSchemaParallel
      rw [hg]
    rw [hred]
    have hne := collectErrs_ne_nil_of_fails ht hf
    cases hc : collectErrs (pgExtractTableWrapped db) tables with
    | nil => exact absurd hc hne
    | cons e rest => rfl
  · intro db tables e hg h
    unfold pgExtractSchemaParallel at h
    split at h
    · rename_i e2 heq
      rw [hg] at heq
      cases heq
    · rename_i tables2 heq
      rw [hg] at heq
      injection heq with heq
      subst heq
      split at h
      · rename_i e2 rest heq2
        injection h with h
        subst h
        obtain ⟨t, ht, he⟩ := collectErrs_mem
          (show e2 ∈ collectErrs (pgExtractTableWrapped db) tables by
            rw [heq2]; exact List.mem_cons_self _ _)
        obtain ⟨facet, hfac, raw, hw⟩ := pgExtractTableWrapped_error_shape db t _ he
        exact ⟨t, ht, facet, hfac, raw, hw⟩
      · cases h
  · intro db dbName tables t hn hg ht hf
    have h1 : myExtractSchema db =
        (match db.getTables dbName with
          | Except.error e => (Except.error e : Except String Schema)
          | Except.ok tables =>
            match buildTables (myExtractTable db dbName) tables [] with
            | Except.error e => Except.error e
            | Except.ok pairs => Except.ok ⟨pairs⟩) := by
      unfold myExtractSchema
      rw [hn]
    have hred : myExtractSchema db =
        (match buildTables (myExtractTable db dbName) tables [] with
          | Except.error e => (Except.error e : Except String Schema)
          | Except.ok pairs => Except.ok ⟨pairs⟩) := by
      rw [h1, hg]
    rw [hred]
    have hfail := buildTables_fails_of_mem tables [] t ht hf
    cases hb : buildTables (myExtractTable db dbName) tables [] with
    | error e => simp [exceptIsOk]
    | ok pairs => rw [hb] at hfail; simp [exceptIsOk] at hfail
  · intro db e h
    unfold myExtractSchema at h
    split at h
    · rename_i e2 heq
      injection h with h
      exact Or.inl (heq.trans (by rw [h]))
    · rename_i dbName heq
      refine Or.inr ⟨dbName, heq, ?_⟩
      split at h
      · rename_i e2 heq2
        injection h with h
        exact Or.inl (heq2.trans (by rw [h]))
      · rename_i tables heq2
        split at h
        · rename_i e2 heq3
          injection h with h
          subst h
          exact Or.inr ⟨tables, heq2, buildTables_error_raw tables [] e2 heq3⟩
        · cases h
  · intro db dbName tables t hn hg ht hf
    have h1 : myExtractSchemaParallel db =
        (match db.getTables dbName with
          | Except.error e => (Except.error e : Except String Schema)
          | Except.ok tables =>
            match collectErrs (myExtractTableWrapped db dbName) tables with
            | e :: _ => Except.error e
            | [] => Except.ok ⟨tables.filterMap fun u =>
                match myExtractTableWrapped db dbName u with
                | Except.ok table => some (u, table)
                | Except.error _ => none⟩) := by
      unfold myExtractSchemaParallel
      rw [hn]
    have hred : myExtractSchemaParallel db =
        (match collectErrs (myExtractTableWrapped db dbName) tables with
          | e :: _ => (Except.error e : Except String Schema)
          | [] => Except.ok ⟨tables.filterMap fun u =>
              match myExtractTableWrapped db dbName u with
              | Except.ok table => some (u, table)
              | Except.error _ => none⟩) := by
      rw [h1, hg]
    rw [hred]
    have hne := collectErrs_ne_nil_of_fails ht hf
    cases hc : collectErrs (myExtractTableWrapped db dbName) tables with
    | nil => exact absurd hc hne
    | cons e rest => rfl
  · intro db dbName tables e hn hg h
    unfold myExtractSchemaParallel at h
    split at h
    · rename_i e2 heq
      rw [hn] at heq
      cases heq
    · rename_i dbName2 heq
      rw [hn] at heq
      injection heq with heq
      subst heq
      split at h
      · rename_i e2 heq2
        rw [hg] at heq2
        cases heq2
      · rename_i tables2 heq2
        rw [hg] at heq2
        injection heq2 with heq2
        subst heq2
        split at h
        · rename_i e2 rest heq3
          injection h with h
          subst h
          obtain ⟨t, ht, he⟩ := collectErrs_mem
            (show e2 ∈ collectErrs (myExtractTableWrapped db dbName) tables by
              rw [heq3]; exact List.mem_cons_self _ _)
          obtain ⟨facet, hfac, raw, hw⟩ := myExtractTableWrapped_error_shape db dbName t _ he
          exact ⟨t, ht, facet, hfac, raw, hw⟩
        · cases h

/-- Witness for C6 (amended): the failing columns query of pgDbBoom makes
both the sequential and the parallel extraction fail. -/
theorem C6_extraction_error_policy_witness :
    exceptIsOk (pgExtractSchema pgDbBoom) = false ∧
    exceptIsOk (pgExtractSchemaParallel pgDbBoom) = false :=
  ⟨C6_extraction_error_policy.1 pgDbBoom ["t1"] "t1" rfl (List.mem_cons_self _ _) rfl,
   C6_extraction_error_policy.2.2.1 pgDbBoom ["t1"] "t1" rfl (List.mem_cons_self _ _) rfl⟩
-- ============================================================================
-- ANTI-SYMMETRY OF STRUCTURAL CHANGES (claim C2)
-- ============================================================================

/-- A key carries a changed-value entry: present on both sides with a
non-empty comparator message. -/
def changedKey {α : Type} (m1 m2 : List (String × α)) (cmp : α → α → String)
    (k : String) : Bool :=
  match findVal m1 k, findVal m2 k with
  | some sv, some tv => if cmp sv tv = "" then false else true
  | _, _ => false

theorem changedKey_symm {α : Type} (m1 m2 : List (String × α)) (cmp : α → α → String)
    (hsym : ∀ a b : α, cmp a b = "" ↔ cmp b a = "") (k : String) :
    changedKey m1 m2 cmp k = changedKey m2 m1 cmp k := by
  unfold changedKey
  cases hv1 : findVal m1 k with
  | none => cases hv2 : findVal m2 k <;> rfl
  | some v1 =>
    cases hv2 : findVal m2 k with
    | none => rfl
    | some v2 =>
      show (if cmp v1 v2 = "" then false else true) = (if cmp v2 v1 = "" then false else true)
      by_cases hc : cmp v1 v2 = ""
      · rw [if_pos hc, if_pos ((hsym v1 v2).mp hc)]
      · rw [if_neg hc, if_neg (fun h2 => hc ((hsym v1 v2).mpr h2))]

theorem filter_sorted_eq_of_mem_iff {p q : String → Bool} {l1 l2 : List String}
    (hs1 : List.Sorted (· ≤ ·) l1) (hs2 : List.Sorted (· ≤ ·) l2)
    (hn1 : l1.Nodup) (hn2 : l2.Nodup)
    (hiff : ∀ a, (a ∈ l1 ∧ p a = true) ↔ (a ∈ l2 ∧ q a = true)) :
    l1.filter p = l2.filter q := by
  refine List.eq_of_perm_of_sorted ?_ (hs1.filter p) (hs2.filter q)
  rw [List.perm_ext_iff_of_nodup (hn1.filter p) (hn2.filter q)]
  intro a
  rw [List.mem_filter, List.mem_filter]
  exact hiff a

theorem compareMaps_names {α D : Type} (m1 m2 : List (String × α))
    (cmp : α → α → String) (mk : String → String → D) (g : D → String)
    (hg : ∀ k d, g (mk k d) = k) :
    List.map g (compareMaps m1 m2 cmp mk).2.2 =
      (getSortedKeys m1).filter fun k =>
        makeSet (getSortedKeys m2) k && changedKey m1 m2 cmp k := by
  simp only [compareMaps]
  generalize getSortedKeys m1 = l
  induction l with
  | nil => rfl
  | cons k rest ih =>
    simp only [List.filterMap_cons, List.filter_cons]
    by_cases hset : makeSet (getSortedKeys m2) k = true
    · rw [if_pos hset]
      cases hv1 : findVal m1 k with
      | none =>
        have hck : changedKey m1 m2 cmp k = false := by
          unfold changedKey
          rw [hv1]
        rw [hck, hset]
        simp [ih]
      | some v1 =>
        cases hv2 : findVal m2 k with
        | none =>
          have hck : changedKey m1 m2 cmp k = false := by
            unfold changedKey
            rw [hv1, hv2]
          rw [hck, hset]
          simp [ih]
        | some v2 =>
          by_cases hc : cmp v1 v2 = ""
          · have hck : changedKey m1 m2 cmp k = false := by
              unfold changedKey
              rw [hv1, hv2]
              simp [hc]
            rw [hck, hset]
            simp [hc, ih]
          · have hck : changedKey m1 m2 cmp k = true := by
              unfold changedKey
              rw [hv1, hv2]
              simp [hc]
            rw [hck, hset]
            simp [hc, hg, ih]
    · rw [if_neg hset, Bool.eq_false_iff.mpr hset]
      simp [ih]
theorem compareMaps_changed_names_symm {α D : Type} (m1 m2 : List (String × α))
    (cmp : α → α → String) (mk : String → String → D) (g : D → String)
    (hg : ∀ k d, g (mk k d) = k)
    (hsym : ∀ a b : α, cmp a b = "" ↔ cmp b a = "")
    (hn1 : (keys m1).Nodup) (hn2 : (keys m2).Nodup) :
    List.map g (compareMaps m1 m2 cmp mk).2.2 =
      List.map g (compareMaps m2 m1 cmp mk).2.2 := by
  rw [compareMaps_names m1 m2 cmp mk g hg, compareMaps_names m2 m1 cmp mk g hg]
  apply filter_sorted_eq_of_mem_iff (sorted_getSortedKeys m1) (sorted_getSortedKeys m2)
    (nodup_getSortedKeys hn1) (nodup_getSortedKeys hn2)
  intro a
  constructor
  · rintro ⟨h1, h2⟩
    rw [Bool.and_eq_true] at h2
    refine ⟨(contains_iff_mem _ a).mp h2.1, ?_⟩
    rw [Bool.and_eq_true]
    exact ⟨(contains_iff_mem _ a).mpr h1, (changedKey_symm m1 m2 cmp hsym a) ▸ h2.2⟩
  · rintro ⟨h1, h2⟩
    rw [Bool.and_eq_true] at h2
    refine ⟨(contains_iff_mem _ a).mp h2.1, ?_⟩
    rw [Bool.and_eq_true]
    exact ⟨(contains_iff_mem _ a).mpr h1, (changedKey_symm m2 m1 cmp hsym a) ▸ h2.2⟩

theorem and_false_ne_true {a b : Bool} (hb : b = false) : ¬((a && b) = true) := by
  rw [hb]
  simp

theorem and_true_eq {a b : Bool} (ha : a = true) (hb : b = true) : (a && b) = true := by
  rw [ha, hb]
  rfl

theorem compareTable_colDiffs_names (s t : Table) (f : FilterConfig) :
    List.map (fun cd => cd.ColumnName) (compareTable s t f).ColumnDiffs =
      (getSortedKeys s.Columns).filter fun k =>
        (makeSet (getSortedKeys t.Columns) k && !(f.ShouldIgnoreColumn s.Name k)) &&
          changedKey s.Columns t.Columns compareColumn k := by
  simp only [compareTable]
  generalize getSortedKeys s.Columns = l
  induction l with
  | nil => rfl
  | cons k rest ih =>
    simp only [List.filterMap_cons, List.filter_cons]
    by_cases hguard :
        (makeSet (getSortedKeys t.Columns) k && !(f.ShouldIgnoreColumn s.Name k)) = true
    · rw [if_pos hguard]
      cases hv1 : findVal s.Columns k with
      | none =>
        have hck : changedKey s.Columns t.Columns compareColumn k = false := by
          unfold changedKey
          rw [hv1]
        rw [if_neg (and_false_ne_true hck)]
        exact ih
      | some v1 =>
        cases hv2 : findVal t.Columns k with
        | none =>
          have hck : changedKey s.Columns t.Columns compareColumn k = false := by
            unfold changedKey
            rw [hv1, hv2]
          rw [if_neg (and_false_ne_true hck)]
          exact ih
        | some v2 =>
          by_cases hc : compareColumn v1 v2 = ""
          · have hck : changedKey s.Columns t.Columns compareColumn k = false := by
              unfold changedKey
              rw [hv1, hv2]
              simp [hc]
            rw [if_neg (and_false_ne_true hck)]
            split
            · exact ih
            · rename_i a heq
              simp [hc] at heq
          · have hck : changedKey s.Columns t.Columns compareColumn k = true := by
              unfold changedKey
              rw [hv1, hv2]
              simp [hc]
            rw [if_pos (and_true_eq hguard hck)]
            split
            · rename_i heq
              simp [hc] at heq
            · rename_i a heq
              simp [hc] at heq
              simp only [List.map_cons]
              rw [← heq]
              exact congrArg (List.cons k) ih
    · rw [if_neg hguard, if_neg (fun hp => hguard (by
        rw [Bool.and_eq_true, Bool.and_eq_true] at hp
        rw [Bool.and_eq_true]
        exact hp.1))]
      exact ih

theorem compareTable_pk_presence_symm (s t : Table) (f : FilterConfig) :
    (compareTable s t f).PrimaryKeyDiff.isSome =
      (compareTable t s f).PrimaryKeyDiff.isSome := by
  simp only [compareTable]
  by_cases h : comparePrimaryKey s.PrimaryKey t.PrimaryKey = ""
  · rw [if_neg (not_not_intro h),
      if_neg (not_not_intro ((comparePrimaryKey_eq_empty_symm _ _).mp h))]
  · rw [if_pos h, if_pos (fun h2 => h ((comparePrimaryKey_eq_empty_symm _ _).mpr h2))]
    rfl

/-- Well-formedness of a table as produced by extraction: the five
constraint maps have pairwise-distinct keys (Go maps cannot have duplicate
keys). -/
def TableWF (t : Table) : Prop :=
  (keys t.Columns).Nodup ∧ (keys t.ForeignKeys).Nodup ∧
  (keys t.UniqueConstraints).Nodup ∧ (keys t.Indexes).Nodup ∧
  (keys t.CheckConstraints).Nodup

/-- C2: with the empty filter, swapping the two inputs swaps every
only-in-source list with the corresponding only-in-target list (at the
schema level and for every per-table facet), and the names carrying a
changed-value entry (column diffs, primary-key diff presence, and the
foreign-key, unique, index and check diff name lists) are the same in both
directions. -/
theorem C2_anti_symmetry (A B : Schema) (s t : Table)
    (hs : TableWF s) (ht : TableWF t) :
    ((ComputeDiff A B NewFilterConfig).TablesOnlyInSource =
        (ComputeDiff B A NewFilterConfig).TablesOnlyInTarget ∧
      (ComputeDiff A B NewFilterConfig).TablesOnlyInTarget =
        (ComputeDiff B A NewFilterConfig).TablesOnlyInSource) ∧
    ((compareTable s t NewFilterConfig).ColumnsOnlyInSource =
        (compareTable t s NewFilterConfig).ColumnsOnlyInTarget ∧
      (compareTable s t NewFilterConfig).ColumnsOnlyInTarget =
        (compareTable t s NewFilterConfig).ColumnsOnlyInSource ∧
      (compareTable s t NewFilterConfig).ForeignKeysOnlyInSource =
        (compareTable t s NewFilterConfig).ForeignKeysOnlyInTarget ∧
      (compareTable s t NewFilterConfig).ForeignKeysOnlyInTarget =
        (compareTable t s NewFilterConfig).ForeignKeysOnlyInSource ∧
      (compareTable s t NewFilterConfig).UniquesOnlyInSource =
        (compareTable t s NewFilterConfig).UniquesOnlyInTarget ∧
      (compareTable s t NewFilterConfig).UniquesOnlyInTarget =
        (compareTable t s NewFilterConfig).UniquesOnlyInSource ∧
      (compareTable s t NewFilterConfig).IndexesOnlyInSource =
        (compareTable t s NewFilterConfig).IndexesOnlyInTarget ∧
      (compareTable s t NewFilterConfig).IndexesOnlyInTarget =
        (compareTable t s NewFilterConfig).IndexesOnlyInSource ∧
      (compareTable s t NewFilterConfig).ChecksOnlyInSource =
        (compareTable t s NewFilterConfig).ChecksOnlyInTarget ∧
      (compareTable s t NewFilterConfig).ChecksOnlyInTarget =
        (compareTable t s NewFilterConfig).ChecksOnlyInSource) ∧
    (List.map (fun cd => cd.ColumnName) (compareTable s t NewFilterConfig).ColumnDiffs =
        List.map (fun cd => cd.ColumnName) (compareTable t s NewFilterConfig).ColumnDiffs ∧
      (compareTable s t NewFilterConfig).PrimaryKeyDiff.isSome =
        (compareTable t s NewFilterConfig).PrimaryKeyDiff.isSome ∧
      List.map (fun d => d.Name) (compareTable s t NewFilterConfig).ForeignKeyDiffs =
        List.map (fun d => d.Name) (compareTable t s NewFilterConfig).ForeignKeyDiffs ∧
      List.map (fun d => d.Name) (compareTable s t NewFilterConfig).UniqueDiffs =
        List.map (fun d => d.Name) (compareTable t s NewFilterConfig).UniqueDiffs ∧
      List.map (fun d => d.Name) (compareTable s t NewFilterConfig).IndexDiffs =
        List.map (fun d => d.Name) (compareTable t s NewFilterConfig).IndexDiffs ∧
      List.map (fun d => d.Name) (compareTable s t NewFilterConfig).CheckDiffs =
        List.map (fun d => d.Name) (compareTable t s NewFilterConfig).CheckDiffs) := by
  obtain ⟨hs1, hs2, hs3, hs4, hs5⟩ := hs
  obtain ⟨ht1, ht2, ht3, ht4, ht5⟩ := ht
  refine ⟨⟨rfl, rfl⟩, ⟨rfl, rfl, rfl, rfl, rfl, rfl, rfl, rfl, rfl, rfl⟩,
    ⟨?_, compareTable_pk_presence_symm s t NewFilterConfig, ?_, ?_, ?_, ?_⟩⟩
  · rw [compareTable_colDiffs_names s t NewFilterConfig,
      compareTable_colDiffs_names t s NewFilterConfig]
    apply filter_sorted_eq_of_mem_iff (sorted_getSortedKeys _) (sorted_getSortedKeys _)
      (nodup_getSortedKeys hs1) (nodup_getSortedKeys ht1)
    intro a
    constructor
    · rintro ⟨h1, h2⟩
      rw [Bool.and_eq_true, Bool.and_eq_true] at h2
      refine ⟨(contains_iff_mem _ a).mp h2.1.1, ?_⟩
      rw [Bool.and_eq_true, Bool.and_eq_true]
      exact ⟨⟨(contains_iff_mem _ a).mpr h1, rfl⟩,
        (changedKey_symm s.Columns t.Columns compareColumn compareColumn_eq_empty_symm a) ▸ h2.2⟩
    · rintro ⟨h1, h2⟩
      rw [Bool.and_eq_true, Bool.and_eq_true] at h2
      refine ⟨(contains_iff_mem _ a).mp h2.1.1, ?_⟩
      rw [Bool.and_eq_true, Bool.and_eq_true]
      exact ⟨⟨(contains_iff_mem _ a).mpr h1, rfl⟩,
        (changedKey_symm t.Columns s.Columns compareColumn compareColumn_eq_empty_symm a) ▸ h2.2⟩
  · exact compareMaps_changed_names_symm s.ForeignKeys t.ForeignKeys compareForeignKey
      FKDiff.mk (fun d => d.Name) (fun _ _ => rfl) compareForeignKey_eq_empty_symm hs2 ht2
  · exact compareMaps_changed_names_symm s.UniqueConstraints t.UniqueConstraints compareUnique
      UniqueDiff.mk (fun d => d.Name) (fun _ _ => rfl) compareUnique_eq_empty_symm hs3 ht3
  · exact compareMaps_changed_names_symm s.Indexes t.Indexes compareIndex
      IndexDiff.mk (fun d => d.Name) (fun _ _ => rfl) compareIndex_eq_empty_symm hs4 ht4
  · exact compareMaps_changed_names_symm s.CheckConstraints t.CheckConstraints compareCheck
      CheckDiff.mk (fun d => d.Name) (fun _ _ => rfl) compareCheck_eq_empty_symm hs5 ht5

/-- Witness for C2 at the concrete sample schemas and tables. -/
theorem C2_anti_symmetry_witness :
    (ComputeDiff sampleSrc sampleTgt NewFilterConfig).TablesOnlyInSource =
      (ComputeDiff sampleTgt sampleSrc NewFilterConfig).TablesOnlyInTarget ∧
    List.map (fun d => d.Name)
        (compareTable sampleSrcTable sampleTgtTable NewFilterConfig).UniqueDiffs =
      List.map (fun d => d.Name)
        (compareTable sampleTgtTable sampleSrcTable NewFilterConfig).UniqueDiffs :=
  ⟨(C2_anti_symmetry sampleSrc sampleTgt sampleSrcTable sampleTgtTable
      (by unfold TableWF keys; decide) (by unfold TableWF keys; decide)).1.1,
   (C2_anti_symmetry sampleSrc sampleTgt sampleSrcTable sampleTgtTable
      (by unfold TableWF keys; decide) (by unfold TableWF keys; decide)).2.2.2.2.2.1⟩
-- ============================================================================
-- ORDERING AND DETERMINISM (claim C5)
-- ============================================================================

theorem filterMap_names_sublist {β : Type} (g2 : β → String) (f2 : String → Option β)
    (hname : ∀ k x, f2 k = some x → g2 x = k) :
    ∀ l : List String, List.Sublist (List.map g2 (l.filterMap f2)) l
  | [] => List.Sublist.refl []
  | k :: rest => by
    cases hfk : f2 k with
    | none =>
      rw [List.filterMap_cons_none hfk]
      exact (filterMap_names_sublist g2 f2 hname rest).cons k
    | some b =>
      rw [List.filterMap_cons_some hfk, List.map_cons, hname k b hfk]
      exact (filterMap_names_sublist g2 f2 hname rest).cons₂ k

theorem pairwise_names_of_filterMap {β : Type} (g2 : β → String) (f2 : String → Option β)
    (hname : ∀ k x, f2 k = some x → g2 x = k) (l : List String)
    (hl : List.Sorted (· ≤ ·) l) :
    List.Pairwise (fun a b => g2 a ≤ g2 b) (l.filterMap f2) :=
  List.pairwise_map.mp (List.Pairwise.sublist (filterMap_names_sublist g2 f2 hname l) hl)

theorem compareMaps_perm_left {α D : Type} {m1 m1' : List (String × α)}
    (m2 : List (String × α)) (cmp : α → α → String) (mk : String → String → D)
    (hp : List.Perm m1 m1') (hn : (keys m1).Nodup) :
    compareMaps m1 m2 cmp mk = compareMaps m1' m2 cmp mk := by
  have e1 : getSortedKeys m1 = getSortedKeys m1' := getSortedKeys_perm hp
  have e2 : ∀ k, findVal m1 k = findVal m1' k := findVal_perm hp hn
  simp only [compareMaps, e1, e2]

theorem compareMaps_perm_right {α D : Type} (m1 : List (String × α))
    {m2 m2' : List (String × α)} (cmp : α → α → String) (mk : String → String → D)
    (hp : List.Perm m2 m2') (hn : (keys m2).Nodup) :
    compareMaps m1 m2 cmp mk = compareMaps m1 m2' cmp mk := by
  have e1 : getSortedKeys m2 = getSortedKeys m2' := getSortedKeys_perm hp
  have e2 : ∀ k, findVal m2 k = findVal m2' k := findVal_perm hp hn
  simp only [compareMaps, e1, e2]

/-- Equality of two tables as Go maps: same name and primary key, and each
of the five keyed collections equal up to entry order. -/
def TableMapPerm (a b : Table) : Prop :=
  a.Name = b.Name ∧ a.PrimaryKey = b.PrimaryKey ∧
  List.Perm a.Columns b.Columns ∧ List.Perm a.ForeignKeys b.ForeignKeys ∧
  List.Perm a.UniqueConstraints b.UniqueConstraints ∧ List.Perm a.Indexes b.Indexes ∧
  List.Perm a.CheckConstraints b.CheckConstraints

theorem compareTable_perm_source (s s' t : Table) (f : FilterConfig)
    (hperm : TableMapPerm s s') (hwf : TableWF s) :
    compareTable s t f = compareTable s' t f := by
  obtain ⟨hName, hPK, hc, hfk, huq, hidx, hchk⟩ := hperm
  obtain ⟨hn1, hn2, hn3, hn4, hn5⟩ := hwf
  have e1 : getSortedKeys s.Columns = getSortedKeys s'.Columns := getSortedKeys_perm hc
  have e2 : ∀ k, findVal s.Columns k = findVal s'.Columns k := findVal_perm hc hn1
  have e3 := compareMaps_perm_left (D := FKDiff) t.ForeignKeys compareForeignKey
    FKDiff.mk hfk hn2
  have e4 := compareMaps_perm_left (D := UniqueDiff) t.UniqueConstraints compareUnique
    UniqueDiff.mk huq hn3
  have e5 := compareMaps_perm_left (D := IndexDiff) t.Indexes compareIndex
    IndexDiff.mk hidx hn4
  have e6 := compareMaps_perm_left (D := CheckDiff) t.CheckConstraints compareCheck
    CheckDiff.mk hchk hn5
  simp only [compareTable, hName, hPK, e1, e2, e3, e4, e5, e6]

theorem compareTable_perm_target (s t t' : Table) (f : FilterConfig)
    (hperm : TableMapPerm t t') (hwf : TableWF t) :
    compareTable s t f = compareTable s t' f := by
  obtain ⟨hName, hPK, hc, hfk, huq, hidx, hchk⟩ := hperm
  obtain ⟨hn1, hn2, hn3, hn4, hn5⟩ := hwf
  have e1 : getSortedKeys t.Columns = getSortedKeys t'.Columns := getSortedKeys_perm hc
  have e2 : ∀ k, findVal t.Columns k = findVal t'.Columns k := findVal_perm hc hn1
  have e3 := compareMaps_perm_right (D := FKDiff) s.ForeignKeys compareForeignKey
    FKDiff.mk hfk hn2
  have e4 := compareMaps_perm_right (D := UniqueDiff) s.UniqueConstraints compareUnique
    UniqueDiff.mk huq hn3
  have e5 := compareMaps_perm_right (D := IndexDiff) s.Indexes compareIndex
    IndexDiff.mk hidx hn4
  have e6 := compareMaps_perm_right (D := CheckDiff) s.CheckConstraints compareCheck
    CheckDiff.mk hchk hn5
  simp only [compareTable, hName, hPK, e1, e2, e3, e4, e5, e6]

theorem ComputeDiff_perm_source (src src' tgt : Schema) (f : FilterConfig)
    (hp : List.Perm src.Tables src'.Tables) (hn : (keys src.Tables).Nodup) :
    ComputeDiff src tgt f = ComputeDiff src' tgt f := by
  have e1 : getSortedKeys src.Tables = getSortedKeys src'.Tables := getSortedKeys_perm hp
  have e2 : ∀ k, findVal src.Tables k = findVal src'.Tables k := findVal_perm hp hn
  simp only [ComputeDiff, e1, e2]

theorem ComputeDiff_perm_target (src tgt tgt' : Schema) (f : FilterConfig)
    (hp : List.Perm tgt.Tables tgt'.Tables) (hn : (keys tgt.Tables).Nodup) :
    ComputeDiff src tgt f = ComputeDiff src tgt' f := by
  have e1 : getSortedKeys tgt.Tables = getSortedKeys tgt'.Tables := getSortedKeys_perm hp
  have e2 : ∀ k, findVal tgt.Tables k = findVal tgt'.Tables k := findVal_perm hp hn
  simp only [ComputeDiff, e1, e2]
theorem compareMaps_only_sorted {α D : Type} (m1 m2 : List (String × α))
    (cmp : α → α → String) (mk : String → String → D) :
    List.Sorted (· ≤ ·) (compareMaps m1 m2 cmp mk).1 ∧
    List.Sorted (· ≤ ·) (compareMaps m1 m2 cmp mk).2.1 := by
  constructor <;>
    (simp only [compareMaps]; exact List.Pairwise.filter _ (sorted_getSortedKeys _))

theorem compareMaps_diffs_pairwise {α D : Type} (m1 m2 : List (String × α))
    (cmp : α → α → String) (mk : String → String → D) (g : D → String)
    (hg : ∀ k d, g (mk k d) = k) :
    List.Pairwise (fun a b : D => g a ≤ g b) (compareMaps m1 m2 cmp mk).2.2 := by
  simp only [compareMaps]
  refine pairwise_names_of_filterMap g _ ?_ _ (sorted_getSortedKeys _)
  intro k x h
  split at h
  · split at h
    · split at h
      · exact absurd h (by simp)
      · injection h with h
        rw [← h]
        exact hg k _
    · exact absurd h (by simp)
  · exact absurd h (by simp)

theorem compareTable_cols_sorted (s t : Table) (f : FilterConfig) :
    List.Sorted (· ≤ ·) (compareTable s t f).ColumnsOnlyInSource ∧
    List.Sorted (· ≤ ·) (compareTable s t f).ColumnsOnlyInTarget := by
  constructor <;>
    (simp only [compareTable]; exact List.Pairwise.filter _ (sorted_getSortedKeys _))

theorem compareTable_colDiffs_pairwise (s t : Table) (f : FilterConfig) :
    List.Pairwise (fun a b : ColumnDiff => a.ColumnName ≤ b.ColumnName)
      (compareTable s t f).ColumnDiffs := by
  simp only [compareTable]
  refine pairwise_names_of_filterMap _ _ ?_ _ (sorted_getSortedKeys _)
  intro k x h
  split at h
  · split at h
    · split at h
      · exact absurd h (by simp)
      · injection h with h
        rw [← h]
    · exact absurd h (by simp)
  · exact absurd h (by simp)

theorem compareTable_fk_sorted (s t : Table) (f : FilterConfig) :
    List.Sorted (· ≤ ·) (compareTable s t f).ForeignKeysOnlyInSource ∧
    List.Sorted (· ≤ ·) (compareTable s t f).ForeignKeysOnlyInTarget ∧
    List.Pairwise (fun a b : FKDiff => a.Name ≤ b.Name)
      (compareTable s t f).ForeignKeyDiffs := by
  cases hfk : f.IgnoreForeignKeys with
  | true =>
    refine ⟨?_, ?_, ?_⟩ <;> simp [compareTable, hfk]
  | false =>
    have h1 : (compareTable s t f).ForeignKeysOnlyInSource =
        (compareMaps s.ForeignKeys t.ForeignKeys compareForeignKey FKDiff.mk).1 := by
      simp [compareTable, hfk]
    have h2 : (compareTable s t f).ForeignKeysOnlyInTarget =
        (compareMaps s.ForeignKeys t.ForeignKeys compareForeignKey FKDiff.mk).2.1 := by
      simp [compareTable, hfk]
    have h3 : (compareTable s t f).ForeignKeyDiffs =
        (compareMaps s.ForeignKeys t.ForeignKeys compareForeignKey FKDiff.mk).2.2 := by
      simp [compareTable, hfk]
    rw [h1, h2, h3]
    exact ⟨(compareMaps_only_sorted _ _ _ _).1, (compareMaps_only_sorted _ _ _ _).2,
      compareMaps_diffs_pairwise _ _ _ _ _ (fun _ _ => rfl)⟩

theorem compareTable_uq_sorted (s t : Table) (f : FilterConfig) :
    List.Sorted (· ≤ ·) (compareTable s t f).UniquesOnlyInSource ∧
    List.Sorted (· ≤ ·) (compareTable s t f).UniquesOnlyInTarget ∧
    List.Pairwise (fun a b : UniqueDiff => a.Name ≤ b.Name)
      (compareTable s t f).UniqueDiffs :=
  ⟨(compareMaps_only_sorted s.UniqueConstraints t.UniqueConstraints compareUnique
      UniqueDiff.mk).1,
   (compareMaps_only_sorted s.UniqueConstraints t.UniqueConstraints compareUnique
      UniqueDiff.mk).2,
   compareMaps_diffs_pairwise s.UniqueConstraints t.UniqueConstraints compareUnique
      UniqueDiff.mk (fun d => d.Name) (fun _ _ => rfl)⟩

theorem compareTable_idx_sorted (s t : Table) (f : FilterConfig) :
    List.Sorted (· ≤ ·) (compareTable s t f).IndexesOnlyInSource ∧
    List.Sorted (· ≤ ·) (compareTable s t f).IndexesOnlyInTarget ∧
    List.Pairwise (fun a b : IndexDiff => a.Name ≤ b.Name)
      (compareTable s t f).IndexDiffs := by
  cases hidx : f.IgnoreIndexes with
  | true =>
    refine ⟨?_, ?_, ?_⟩ <;> simp [compareTable, hidx]
  | false =>
    have h1 : (compareTable s t f).IndexesOnlyInSource =
        (compareMaps s.Indexes t.Indexes compareIndex IndexDiff.mk).1 := by
      simp [compareTable, hidx]
    have h2 : (compareTable s t f).IndexesOnlyInTarget =
        (compareMaps s.Indexes t.Indexes compareIndex IndexDiff.mk).2.1 := by
      simp [compareTable, hidx]
    have h3 : (compareTable s t f).IndexDiffs =
        (compareMaps s.Indexes t.Indexes compareIndex IndexDiff.mk).2.2 := by
      simp [compareTable, hidx]
    rw [h1, h2, h3]
    exact ⟨(compareMaps_only_sorted _ _ _ _).1, (compareMaps_only_sorted _ _ _ _).2,
      compareMaps_diffs_pairwise _ _ _ _ _ (fun _ _ => rfl)⟩

theorem compareTable_chk_sorted (s t : Table) (f : FilterConfig) :
    List.Sorted (· ≤ ·) (compareTable s t f).ChecksOnlyInSource ∧
    List.Sorted (· ≤ ·) (compareTable s t f).ChecksOnlyInTarget ∧
    List.Pairwise (fun a b : CheckDiff => a.Name ≤ b.Name)
      (compareTable s t f).CheckDiffs := by
  cases hchk : f.IgnoreChecks with
  | true =>
    refine ⟨?_, ?_, ?_⟩ <;> simp [compareTable, hchk]
  | false =>
    have h1 : (compareTable s t f).ChecksOnlyInSource =
        (compareMaps s.CheckConstraints t.CheckConstraints compareCheck CheckDiff.mk).1 := by
      simp [compareTable, hchk]
    have h2 : (compareTable s t f).ChecksOnlyInTarget =
        (compareMaps s.CheckConstraints t.CheckConstraints compareCheck CheckDiff.mk).2.1 := by
      simp [compareTable, hchk]
    have h3 : (compareTable s t f).CheckDiffs =
        (compareMaps s.CheckConstraints t.CheckConstraints compareCheck CheckDiff.mk).2.2 := by
      simp [compareTable, hchk]
    rw [h1, h2, h3]
    exact ⟨(compareMaps_only_sorted _ _ _ _).1, (compareMaps_only_sorted _ _ _ _).2,
      compareMaps_diffs_pairwise _ _ _ _ _ (fun _ _ => rfl)⟩

theorem ComputeDiff_tables_sorted (src tgt : Schema) (f : FilterConfig) :
    List.Sorted (· ≤ ·) (ComputeDiff src tgt f).TablesOnlyInSource ∧
    List.Sorted (· ≤ ·) (ComputeDiff src tgt f).TablesOnlyInTarget := by
  constructor <;>
    (simp only [ComputeDiff]; exact List.Pairwise.filter _ (sorted_getSortedKeys _))

theorem ComputeDiff_tableDiffs_pairwise (src tgt : Schema) (f : FilterConfig)
    (hcoh : NameCoherent src) :
    List.Pairwise (fun a b : TableDiff => a.TableName ≤ b.TableName)
      (ComputeDiff src tgt f).TableDiffs := by
  simp only [ComputeDiff]
  refine pairwise_names_of_filterMap _ _ ?_ _ (sorted_getSortedKeys _)
  intro k x h
  split at h
  · split at h
    · rename_i st tt hst htt
      split at h
      · injection h with h
        rw [← h]
        exact hcoh (k, st) (mem_of_findVal_eq_some hst)
      · exact absurd h (by simp)
    · exact absurd h (by simp)
  · exact absurd h (by simp)
def sampleSrc2 : Schema := ⟨[("t", sampleSrcTable), ("u", sampleTgtTable)]⟩

def sampleSrc2Perm : Schema := ⟨[("u", sampleTgtTable), ("t", sampleSrcTable)]⟩

/-- C5: every list in the output is in ascending lexicographic order of key
name (schema-level table lists, the TableDiffs by table name, and every
per-table facet list), and the whole output is invariant under reordering
of the underlying maps (association lists with duplicate-free keys), i.e.
deterministic regardless of map iteration order. -/
theorem C5_sorted_deterministic :
    (∀ (src tgt : Schema) (f : FilterConfig),
      List.Sorted (· ≤ ·) (ComputeDiff src tgt f).TablesOnlyInSource ∧
      List.Sorted (· ≤ ·) (ComputeDiff src tgt f).TablesOnlyInTarget) ∧
    (∀ (src tgt : Schema) (f : FilterConfig), NameCoherent src →
      List.Pairwise (fun a b : TableDiff => a.TableName ≤ b.TableName)
        (ComputeDiff src tgt f).TableDiffs) ∧
    (∀ (s t : Table) (f : FilterConfig),
      List.Sorted (· ≤ ·) (compareTable s t f).ColumnsOnlyInSource ∧
      List.Sorted (· ≤ ·) (compareTable s t f).ColumnsOnlyInTarget ∧
      List.Pairwise (fun a b : ColumnDiff => a.ColumnName ≤ b.ColumnName)
        (compareTable s t f).ColumnDiffs ∧
      List.Sorted (· ≤ ·) (compareTable s t f).ForeignKeysOnlyInSource ∧
      List.Sorted (· ≤ ·) (compareTable s t f).ForeignKeysOnlyInTarget ∧
      List.Pairwise (fun a b : FKDiff => a.Name ≤ b.Name)
        (compareTable s t f).ForeignKeyDiffs ∧
      List.Sorted (· ≤ ·) (compareTable s t f).UniquesOnlyInSource ∧
      List.Sorted (· ≤ ·) (compareTable s t f).UniquesOnlyInTarget ∧
      List.Pairwise (fun a b : UniqueDiff => a.Name ≤ b.Name)
        (compareTable s t f).UniqueDiffs ∧
      List.Sorted (· ≤ ·) (compareTable s t f).IndexesOnlyInSource ∧
      List.Sorted (· ≤ ·) (compareTable s t f).IndexesOnlyInTarget ∧
      List.Pairwise (fun a b : IndexDiff => a.Name ≤ b.Name)
        (compareTable s t f).IndexDiffs ∧
      List.Sorted (· ≤ ·) (compareTable s t f).ChecksOnlyInSource ∧
      List.Sorted (· ≤ ·) (compareTable s t f).ChecksOnlyInTarget ∧
      List.Pairwise (fun a b : CheckDiff => a.Name ≤ b.Name)
        (compareTable s t f).CheckDiffs) ∧
    (∀ (src src' tgt : Schema) (f : FilterConfig),
      List.Perm src.Tables src'.Tables → (keys src.Tables).Nodup →
      ComputeDiff src tgt f = ComputeDiff src' tgt f) ∧
    (∀ (src tgt tgt' : Schema) (f : FilterConfig),
      List.Perm tgt.Tables tgt'.Tables → (keys tgt.Tables).Nodup →
      ComputeDiff src tgt f = ComputeDiff src tgt' f) ∧
    (∀ (s s' t : Table) (f : FilterConfig),
      TableMapPerm s s' → TableWF s → compareTable s t f = compareTable s' t f) ∧
    (∀ (s t t' : Table) (f : FilterConfig),
      TableMapPerm t t' → TableWF t → compareTable s t f = compareTable s t' f) := by
  refine ⟨ComputeDiff_tables_sorted,
    fun src tgt f hcoh => ComputeDiff_tableDiffs_pairwise src tgt f hcoh,
    fun s t f => ?_,
    fun src src' tgt f hp hn => ComputeDiff_perm_source src src' tgt f hp hn,
    fun src tgt tgt' f hp hn => ComputeDiff_perm_target src tgt tgt' f hp hn,
    fun s s' t f hp hwf => compareTable_perm_source s s' t f hp hwf,
    fun s t t' f hp hwf => compareTable_perm_target s t t' f hp hwf⟩
  exact ⟨(compareTable_cols_sorted s t f).1, (compareTable_cols_sorted s t f).2,
    compareTable_colDiffs_pairwise s t f,
    (compareTable_fk_sorted s t f).1, (compareTable_fk_sorted s t f).2.1,
    (compareTable_fk_sorted s t f).2.2,
    (compareTable_uq_sorted s t f).1, (compareTable_uq_sorted s t f).2.1,
    (compareTable_uq_sorted s t f).2.2,
    (compareTable_idx_sorted s t f).1, (compareTable_idx_sorted s t f).2.1,
    (compareTable_idx_sorted s t f).2.2,
    (compareTable_chk_sorted s t f).1, (compareTable_chk_sorted s t f).2.1,
    (compareTable_chk_sorted s t f).2.2⟩

/-- Witness for C5 at the sample schemas: the table-diff list of a concrete
run is name-ordered, and permuting a two-table source schema leaves the
output unchanged. -/
theorem C5_sorted_deterministic_witness :
    List.Pairwise (fun a b : TableDiff => a.TableName ≤ b.TableName)
      (ComputeDiff sampleSrc sampleTgt NewFilterConfig).TableDiffs ∧
    ComputeDiff sampleSrc2 sampleTgt NewFilterConfig =
      ComputeDiff sampleSrc2Perm sampleTgt NewFilterConfig :=
  ⟨C5_sorted_deterministic.2.1 sampleSrc sampleTgt NewFilterConfig
      (by unfold NameCoherent; decide),
   C5_sorted_deterministic.2.2.2.1 sampleSrc2 sampleSrc2Perm sampleTgt NewFilterConfig
      (by decide) (by decide)⟩

end DbDiff
